import Mathlib

/-!
# The statement builder of xorm (statement.go)

A shallow embedding of `statement.go`: the condition deriver `BuildConditions`, the
fragment setters of `Statement`, the SELECT renderers `genSelectSql`, `genGetSql` and
`genCountSql`, and the renderers of CREATE TABLE, CREATE INDEX and DROP TABLE.

Conventions of the embedding.

* Go strings are Lean strings; `fmt.Sprintf` with `%v` verbs is concatenation, an `int`
  being printed in decimal.
* A panic of the Go code is `Except.error`; the message is informative only.
* `*Engine` is a pointer to shared mutable state: functions that may register table
  metadata take the engine state and return the new one.
* What `reflect` exposes of a Go value is the inductive type `Value`.
-/

namespace Xorm

deriving instance DecidableEq for Except

/-! ## Go values as seen through reflection -/

/-- The kinds of `reflect.Kind`. -/
inductive Kind
  | Invalid | Bool | Int | Int8 | Int16 | Int32 | Int64
  | Uint | Uint8 | Uint16 | Uint32 | Uint64 | Uintptr
  | Float32 | Float64 | Complex64 | Complex128
  | Array | Chan | Func | Interface | Map | Ptr | Slice | String | Struct | UnsafePointer
  deriving DecidableEq, Repr

/-- The signed integer kinds, those on which `reflect.Value.Int` is defined. -/
inductive IntKind
  | Int | Int8 | Int16 | Int32 | Int64
  deriving DecidableEq, Repr

/-- The unsigned integer kinds. -/
inductive UintKind
  | Uint | Uint8 | Uint16 | Uint32 | Uint64 | Uintptr
  deriving DecidableEq, Repr

/-- The kinds whose values the statement builder never looks into. -/
inductive OtherKind
  | Bool | Float32 | Float64 | Complex64 | Complex128
  | Array | Chan | Func | Map | Ptr | Slice | UnsafePointer
  deriving DecidableEq, Repr

def IntKind.toKind : IntKind → Kind
  | .Int => .Int
  | .Int8 => .Int8
  | .Int16 => .Int16
  | .Int32 => .Int32
  | .Int64 => .Int64

def UintKind.toKind : UintKind → Kind
  | .Uint => .Uint
  | .Uint8 => .Uint8
  | .Uint16 => .Uint16
  | .Uint32 => .Uint32
  | .Uint64 => .Uint64
  | .Uintptr => .Uintptr

def OtherKind.toKind : OtherKind → Kind
  | .Bool => .Bool
  | .Float32 => .Float32
  | .Float64 => .Float64
  | .Complex64 => .Complex64
  | .Complex128 => .Complex128
  | .Array => .Array
  | .Chan => .Chan
  | .Func => .Func
  | .Map => .Map
  | .Ptr => .Ptr
  | .Slice => .Slice
  | .UnsafePointer => .UnsafePointer

/-- A `reflect.Type`, identified by its name and kind. -/
structure RType where
  name : String
  kind : Kind
  deriving DecidableEq, Repr

/-- An instant of `time.Time`: seconds and nanoseconds since the zero instant. -/
structure Time where
  sec : Int
  nsec : Int
  deriving DecidableEq, Repr

/-- The method `time.Time.IsZero`. -/
def Time.IsZero (t : Time) : Bool :=
  t.sec == 0 && t.nsec == 0

/-- The type `reflect.TypeOf(time.Now())`. -/
def timeType : RType := ⟨"time.Time", .Struct⟩

mutual
/-- A Go value as `reflect` shows it. The first argument of a constructor is the name of
the value's type. `iface` is a field of interface type holding a value, `ifaceNil` one
holding nil; `other` is a value of a kind that is never looked into. -/
inductive Value
  | str (t : String) (s : String)
  | int (t : String) (k : IntKind) (i : Int)
  | uint (t : String) (k : UintKind) (n : Nat)
  | time (t : Time)
  | struct (t : String) (fs : Fields)
  | iface (t : String) (v : Value)
  | ifaceNil (t : String)
  | other (t : String) (k : OtherKind)
  deriving DecidableEq
/-- The fields of a struct value, in declaration order. `exported` is the bit that
`reflect` keeps with the name of a field: whether the name is exported. -/
inductive Fields
  | nil
  | cons (name : String) (exported : Bool) (v : Value) (rest : Fields)
  deriving DecidableEq
end

/-- A Go `interface{}`: `none` is the nil interface. -/
abbrev Any := Option Value

/-- A Go slice `[]interface{}`: `none` is the nil slice. -/
abbrev Slice := Option (List Any)

/-- The elements of a slice. -/
def Slice.elems : Slice → List Any
  | none => []
  | some xs => xs

/-- Go's `append(s, xs...)`: appending nothing gives back `s`, nil included. -/
def Slice.append (s : Slice) (xs : Slice) : Slice :=
  match xs.elems with
  | [] => s
  | y :: ys => some (s.elems ++ y :: ys)

/-- The field of that name, if the struct has one. -/
def Fields.lookup : Fields → String → Option Value
  | .nil, _ => none
  | .cons n _ v rest, name => if n = name then some v else rest.lookup name

/-- Whether the field of that name is unexported. -/
def Fields.unexported : Fields → String → Bool
  | .nil, _ => false
  | .cons n exported _ rest, name => if n = name then !exported else rest.unexported name

/-- The method `reflect.Value.Type`: the static type of the value. -/
def Value.Typ : Value → RType
  | .str t _ => ⟨t, .String⟩
  | .int t k _ => ⟨t, k.toKind⟩
  | .uint t k _ => ⟨t, k.toKind⟩
  | .time _ => timeType
  | .struct t _ => ⟨t, .Struct⟩
  | .iface t _ => ⟨t, .Interface⟩
  | .ifaceNil t => ⟨t, .Interface⟩
  | .other t k => ⟨t, k.toKind⟩

/-- The value as an `interface{}`: what `reflect.Value.Interface` returns when it
returns. For a field of interface type it is the value held, nil when there is none. -/
def Value.dynamic : Value → Any
  | .iface _ v => some v
  | .ifaceNil _ => none
  | v => some v

/-- The message of the panic of `reflect.Value.Interface` on a read-only Value. -/
def unexportedPanic : String :=
  "reflect.Value.Interface: cannot return value obtained from unexported field or method"

/-- The method `reflect.Value.Interface` on a Value whose read-only flag is `readOnly`:
it panics on a Value that was read from an unexported field. -/
def Value.Interface (v : Value) (readOnly : Bool) : Except String Any :=
  if readOnly then .error unexportedPanic else .ok v.dynamic

/-- The method `reflect.Value.String`: the string of a value of kind String, and a
description of the type for every other kind. -/
def Value.Str : Value → String
  | .str _ s => s
  | v => "<" ++ v.Typ.name ++ " Value>"

/-- The method `reflect.Value.Int`: panics unless the kind is a signed integer kind. -/
def Value.Int64 : Value → Except String Int
  | .int _ _ i => .ok i
  | _ => .error "reflect: call of reflect.Value.Int on a Value of another kind"

/-- The call `reflect.Indirect(v).FieldByName(name)` on a value that is not a pointer:
panics unless the kind is Struct, and yields the zero Value (`none`) when there is no
such field. The unexported fields of `time.Time` are not represented. -/
def Value.FieldByName : Value → String → Except String (Option Value)
  | .struct _ fs, name => .ok (fs.lookup name)
  | .time _, _ => .ok none
  | _, _ => .error "reflect: call of reflect.Value.FieldByName on a Value that is no struct"

/-- The read-only flag of the Value that `reflect.Indirect(v).FieldByName(name)` returns,
for a `v` that is not read-only itself: set when the field is unexported. -/
def Value.FieldReadOnly : Value → String → Bool
  | .struct _ fs, name => fs.unexported name
  | _, _ => false

/-! ## Table metadata and the engine -/

/-- The map direction of a column (constants declared elsewhere in the package). -/
inductive MapDirection
  | TWOSIDES | ONLYTODB | ONLYFROMDB
  deriving DecidableEq, Repr

/-- A column descriptor: the fields of `Column` that `statement.go` reads. -/
structure Column where
  Name : String
  FieldName : String
  MapType : MapDirection
  deriving DecidableEq, Repr

/-- Table metadata: the fields of `Table` that `statement.go` reads. `PKColumn` is what
the method `PKColumn()` returns, `none` being a nil pointer. A Go map is an association
list in iteration order. -/
structure Table where
  Name : String
  Columns : List Column
  Indexes : List (String × List String)
  Uniques : List (String × List String)
  PKColumn : Option Column
  deriving DecidableEq, Repr

/-- The dialect capabilities read by the renderers. -/
structure Dialect where
  SupportEngine : Bool
  SupportCharset : Bool
  deriving DecidableEq, Repr

/-- The engine state: the registry `Tables` (a map from `reflect.Type` to table metadata)
and the dialect. The identifier quoting `Quote`, the schema discovery `MapType` and the
definition text `ColumnString` of a column (the method `Column.String(engine)`) are
declared elsewhere in the package and kept abstract. -/
structure Engine where
  Tables : List (RType × Table)
  Dialect : Dialect
  Quote : String → String
  MapType : RType → Table
  ColumnString : Column → String

/-- Modelled from the spec: the method `Column.ValueOf` is missing from the sources; it
reads the field of the object that the column is mapped to. The bean is the struct value
reached through `reflect.Indirect`; `none` is the zero Value of an absent field. -/
def Column.ValueOf (col : Column) (bean : Value) : Except String (Option Value) :=
  bean.FieldByName col.FieldName

/-- Modelled from the spec: the method `Column.ValueOf` is missing from the sources; this
is the read-only flag of the Value it returns, which `reflect` sets when the field that the
column is mapped to is unexported. -/
def Column.ReadOnly (col : Column) (bean : Value) : Bool :=
  bean.FieldReadOnly col.FieldName

/-- Modelled from the spec: the method `Engine.AutoMapType` is missing from the sources; it
returns the table metadata registered for the type, computing and registering it first
when the type is not registered yet. -/
def Engine.AutoMapType (engine : Engine) (t : RType) : Engine × Table :=
  match engine.Tables.lookup t with
  | some table => (engine, table)
  | none => ({ engine with Tables := (t, engine.MapType t) :: engine.Tables }, engine.MapType t)

/-- Modelled from the spec: the method `Engine.AutoMap` is missing from the sources; it
resolves the table metadata for the type of the object. -/
def Engine.AutoMap (engine : Engine) (bean : Value) : Engine × Table :=
  engine.AutoMapType bean.Typ

/-! ## BuildConditions -/

/-- The fragment `fmt.Sprintf("%v = ?", engine.Quote(col.Name))`. -/
def conditionFragment (engine : Engine) (col : Column) : String :=
  engine.Quote col.Name ++ " = ?"

/-- Lines 113 to 123 of the loop body of `BuildConditions`: bind the primary key of a field
whose type is registered (skipping the column when that key is 0), the value itself
otherwise, and add the fragment of the column. Where these lines are reached the
`Interface` of `fieldValue` has returned, so `fieldValue` is not read-only, and `pkField`
is read-only exactly when the key field is unexported; `Int` reads a read-only Value,
`Interface` panics on it. -/
def BuildConditions.bind (engine : Engine) (colNames : List String) (args : List Any)
    (col : Column) (fieldValue : Value) (val : Any) :
    Except String (Engine × List String × List Any) :=
  match engine.Tables.lookup fieldValue.Typ with
  | some table =>
    match table.PKColumn with
    | none => .error "nil pointer dereference: the table has no primary key column"
    | some pkCol =>
      match fieldValue.FieldByName pkCol.FieldName with
      | .error e => .error e
      | .ok none => .error "reflect: call of reflect.Value.Int on zero Value"
      | .ok (some pkField) =>
        match pkField.Int64 with
        | .error e => .error e
        | .ok i =>
          if i ≠ 0 then
            match pkField.Interface (fieldValue.FieldReadOnly pkCol.FieldName) with
            | .error e => .error e
            | .ok key => .ok (engine, colNames ++ [conditionFragment engine col], args ++ [key])
          else
            .ok (engine, colNames, args)
  | none => .ok (engine, colNames ++ [conditionFragment engine col], args ++ [val])

/-- One iteration of the loop of `BuildConditions` (lines 88 to 123) on the column `col`,
from the engine state and the two lists built so far. A `continue` leaves all three
unchanged. -/
def BuildConditions.body (bean : Value) (acc : Engine × List String × List Any)
    (col : Column) : Except String (Engine × List String × List Any) :=
  match col.ValueOf bean with
  | .error e => .error e
  | .ok none => .error "reflect: call of reflect.Value.Interface on zero Value"
  | .ok (some fieldValue) =>
    match fieldValue.Interface (col.ReadOnly bean) with
    | .error e => .error e
    | .ok none => .error "nil pointer dereference: reflect.TypeOf(nil).Kind()"
    | .ok (some val) =>
      match val.Typ.kind with
      | .String =>
        if fieldValue.Str = "" then .ok acc
        else BuildConditions.bind acc.1 acc.2.1 acc.2.2 col fieldValue (some val)
      | .Int | .Int32 | .Int64 =>
        match fieldValue.Int64 with
        | .error e => .error e
        | .ok i =>
          if i = 0 then .ok acc
          else BuildConditions.bind acc.1 acc.2.1 acc.2.2 col fieldValue (some val)
      | .Struct =>
        if val.Typ = timeType then
          match val with
          | .time t =>
            if t.IsZero then .ok acc
            else BuildConditions.bind acc.1 acc.2.1 acc.2.2 col fieldValue (some val)
          | _ => .error "interface conversion: the value is not a time.Time"
        else
          BuildConditions.bind (acc.1.AutoMapType fieldValue.Typ).1 acc.2.1 acc.2.2 col
            fieldValue (some val)
      | _ => .ok acc

/-- The loop of `BuildConditions` over the columns still to visit. -/
def BuildConditions.loop (bean : Value) :
    List Column → Engine × List String × List Any → Except String (Engine × List String × List Any)
  | [], acc => .ok acc
  | col :: rest, acc =>
    match BuildConditions.body bean acc col with
    | .error e => .error e
    | .ok acc1 => BuildConditions.loop bean rest acc1

/-- The function `BuildConditions`: the fragments and the parameters derived from the
bean, together with the engine state it leaves. -/
def BuildConditions (engine : Engine) (table : Table) (bean : Value) :
    Except String (Engine × List String × List Any) :=
  BuildConditions.loop bean table.Columns (engine, [], [])

/-! ## Strings -/

/-- The call `strings.Replace(s, old, new, -1)` on the characters of `s`, for a pattern
`old` of one character: every occurrence is replaced. -/
def replaceChars (old : Char) (new : List Char) : List Char → List Char
  | [] => []
  | c :: cs => if c = old then new ++ replaceChars old new cs else c :: replaceChars old new cs

/-- The call `strings.Replace(s, ",", new, -1)`. -/
def replaceCommas (s new : String) : String :=
  String.mk (replaceChars ',' new.data s.data)

/-- The verb `%v` of `fmt.Sprintf` on an `int`: its decimal representation. -/
def decimal (n : Int) : String :=
  toString n

/-- The predicate `unicode.IsSpace`. -/
def isSpace (c : Char) : Bool :=
  (9 ≤ c.toNat && c.toNat ≤ 13) || c.toNat = 32 || c.toNat = 0x85 || c.toNat = 0xA0
    || c.toNat = 0x1680 || (0x2000 ≤ c.toNat && c.toNat ≤ 0x200A) || c.toNat = 0x2028
    || c.toNat = 0x2029 || c.toNat = 0x202F || c.toNat = 0x205F || c.toNat = 0x3000

/-- The function `strings.TrimSpace`. -/
def TrimSpace (s : String) : String :=
  String.mk ((s.data.dropWhile isSpace).reverse.dropWhile isSpace).reverse

/-- The slice expression `s[:len(s)-2]` on a text whose last two characters are ASCII. -/
def dropLastTwo (s : String) : String :=
  String.mk (s.data.take (s.data.length - 2))

/-! ## The statement -/

/-- The struct `Statement`. `Engine` is the state of the engine the statement points to;
`RefTable` is `none` for a nil pointer and `columnMap` is `none` for a nil map. -/
structure Statement where
  RefTable : Option Table
  Engine : Engine
  Start : Int
  LimitN : Int
  WhereStr : String
  Params : Slice
  OrderStr : String
  JoinStr : String
  GroupByStr : String
  HavingStr : String
  ColumnStr : String
  columnMap : Option (List (String × Bool))
  ConditionStr : String
  AltTableName : String
  RawSQL : String
  RawParams : Slice
  UseCascade : Bool
  UseAutoJoin : Bool
  StoreEngine : String
  Charset : String
  BeanArgs : Slice

/-- The function `MakeArray`. -/
def MakeArray (elem : String) (count : Nat) : List String :=
  List.replicate count elem

/-- The method `Statement.Init`. -/
def Statement.Init (statement : Statement) : Statement :=
  { statement with
    RefTable := none
    Start := 0
    LimitN := 0
    WhereStr := ""
    Params := some []
    OrderStr := ""
    UseCascade := true
    JoinStr := ""
    GroupByStr := ""
    HavingStr := ""
    ColumnStr := ""
    columnMap := some []
    ConditionStr := ""
    AltTableName := ""
    RawSQL := ""
    RawParams := some []
    BeanArgs := some [] }

/-- The method `Statement.Sql`. -/
def Statement.Sql (statement : Statement) (querystring : String) (args : Slice) : Statement :=
  { statement with RawSQL := querystring, RawParams := args }

/-- The method `Statement.Where`. -/
def Statement.Where (statement : Statement) (querystring : String) (args : Slice) : Statement :=
  { statement with WhereStr := querystring, Params := args }

/-- The method `Statement.Table`. -/
def Statement.Table (statement : Statement) (tableName : String) : Statement :=
  { statement with AltTableName := tableName }

/-- The method `Statement.TableName`. -/
def Statement.TableName (statement : Statement) : String :=
  if statement.AltTableName ≠ "" then statement.AltTableName
  else
    match statement.RefTable with
    | some table => table.Name
    | none => ""

/-- The method `Statement.Id`. -/
def Statement.Id (statement : Statement) (id : Int) : Statement :=
  if statement.WhereStr = "" then
    { statement with WhereStr := "(id)=?", Params := some [some (.int "int64" .Int64 id)] }
  else
    { statement with
      WhereStr := statement.WhereStr ++ " and (id)=?"
      Params := Slice.append statement.Params (some [some (.int "int64" .Int64 id)]) }

/-- The method `Statement.In`. -/
def Statement.In (statement : Statement) (column : String) (args : Slice) : Statement :=
  let inStr := column ++ " IN (" ++ ",".intercalate (MakeArray "?" args.elems.length) ++ ")"
  if statement.WhereStr = "" then
    { statement with WhereStr := inStr, Params := args }
  else
    { statement with
      WhereStr := statement.WhereStr ++ " and " ++ inStr
      Params := Slice.append statement.Params args }

/-- The method `Statement.Limit`; `start` is the variadic argument. -/
def Statement.Limit (statement : Statement) (limit : Int) (start : List Int) : Statement :=
  match start with
  | [] => { statement with LimitN := limit }
  | s :: _ => { statement with LimitN := limit, Start := s }

/-- The method `Statement.OrderBy`. -/
def Statement.OrderBy (statement : Statement) (order : String) : Statement :=
  { statement with OrderStr := order }

/-- The method `Statement.Join`. -/
def Statement.Join (statement : Statement) (join_operator tablename condition : String) :
    Statement :=
  if statement.JoinStr ≠ "" then
    { statement with
      JoinStr := statement.JoinStr ++ (join_operator ++ " JOIN " ++ tablename ++ " ON " ++ condition) }
  else
    { statement with JoinStr := join_operator ++ " JOIN " ++ tablename ++ " ON " ++ condition }

/-- The method `Statement.GroupBy`. -/
def Statement.GroupBy (statement : Statement) (keys : String) : Statement :=
  { statement with GroupByStr := keys }

/-- The method `Statement.Having`. -/
def Statement.Having (statement : Statement) (conditions : String) : Statement :=
  { statement with HavingStr := "HAVING " ++ conditions }

/-- The method `Statement.genColumnStr`; it panics on a nil `RefTable`. -/
def Statement.genColumnStr (statement : Statement) : Except String String :=
  match statement.RefTable with
  | none => .error "nil pointer dereference: RefTable"
  | some table =>
    .ok (", ".intercalate
      ((table.Columns.filter (fun col => col.MapType ≠ .ONLYTODB)).map (fun col =>
        statement.Engine.Quote statement.TableName ++ "." ++ statement.Engine.Quote col.Name)))

/-- A Go map assignment `m[key] = value` on an association list. -/
def mapSet (m : List (String × Bool)) (key : String) (value : Bool) : List (String × Bool) :=
  match m with
  | [] => [(key, value)]
  | (k, v) :: rest => if k = key then (k, value) :: rest else (k, v) :: mapSet rest key value

/-- The method `Statement.Cols`; writing to a nil map panics. -/
def Statement.Cols (statement : Statement) (columns : List String) : Except String Statement :=
  let statement :=
    { statement with ColumnStr := (statement.Engine.Quote ", ").intercalate columns }
  match columns, statement.columnMap with
  | [], _ => .ok statement
  | _ :: _, none => .error "assignment to entry in nil map"
  | _ :: _, some m =>
    .ok { statement with columnMap := some (columns.foldl (fun m column => mapSet m column true) m) }

/-- The method `Statement.genCreateSQL`; it panics on a nil `RefTable`. -/
def Statement.genCreateSQL (statement : Statement) : Except String String :=
  let sql := "CREATE TABLE IF NOT EXISTS " ++ statement.Engine.Quote statement.TableName ++ " ("
  match statement.RefTable with
  | none => .error "nil pointer dereference: RefTable"
  | some table =>
    let sql := table.Columns.foldl
      (fun sql col => TrimSpace (sql ++ statement.Engine.ColumnString col) ++ ", ") sql
    let sql := dropLastTwo sql ++ ")"
    let sql :=
      if statement.Engine.Dialect.SupportEngine ∧ statement.StoreEngine ≠ "" then
        sql ++ " ENGINE=" ++ statement.StoreEngine
      else sql
    let sql :=
      if statement.Engine.Dialect.SupportCharset ∧ statement.Charset ≠ "" then
        sql ++ " DEFAULT CHARSET " ++ statement.Charset
      else sql
    .ok (sql ++ ";")

/-- The method `Statement.genIndexSQL`; it panics on a nil `RefTable`. -/
def Statement.genIndexSQL (statement : Statement) : Except String (List String) :=
  match statement.RefTable with
  | none => .error "nil pointer dereference: RefTable"
  | some table =>
    .ok (table.Indexes.map (fun entry =>
      "CREATE INDEX IDX_" ++ statement.TableName ++ "_" ++ entry.1 ++ " ON "
        ++ statement.TableName ++ " (" ++ ",".intercalate entry.2 ++ ");"))

/-- The method `Statement.genUniqueSQL`; it panics on a nil `RefTable`. -/
def Statement.genUniqueSQL (statement : Statement) : Except String (List String) :=
  match statement.RefTable with
  | none => .error "nil pointer dereference: RefTable"
  | some table =>
    .ok (table.Uniques.map (fun entry =>
      "CREATE UNIQUE INDEX UQE_" ++ statement.TableName ++ "_" ++ entry.1 ++ " ON "
        ++ statement.TableName ++ " (" ++ ",".intercalate entry.2 ++ ");"))

/-- The method `Statement.genDropSQL`. -/
def Statement.genDropSQL (statement : Statement) : String :=
  "DROP TABLE IF EXISTS " ++ statement.Engine.Quote statement.TableName ++ ";"

/-- The method `Statement.genSelectSql`. -/
def Statement.genSelectSql (statement : Statement) (columnStr : String) : String :=
  let columnStr :=
    if statement.GroupByStr ≠ "" then
      statement.Engine.Quote (replaceCommas statement.GroupByStr (statement.Engine.Quote ","))
    else columnStr
  let statement :=
    if statement.GroupByStr ≠ "" then { statement with GroupByStr := columnStr } else statement
  let a := "SELECT " ++ columnStr ++ " FROM " ++ statement.Engine.Quote statement.TableName
  let a := if statement.JoinStr ≠ "" then a ++ " " ++ statement.JoinStr else a
  let a :=
    if statement.WhereStr ≠ "" then
      let a := a ++ " WHERE " ++ statement.WhereStr
      if statement.ConditionStr ≠ "" then a ++ " and " ++ statement.ConditionStr else a
    else if statement.ConditionStr ≠ "" then a ++ " WHERE " ++ statement.ConditionStr
    else a
  let a := if statement.GroupByStr ≠ "" then a ++ " GROUP BY " ++ statement.GroupByStr else a
  let a := if statement.HavingStr ≠ "" then a ++ " " ++ statement.HavingStr else a
  let a := if statement.OrderStr ≠ "" then a ++ " ORDER BY " ++ statement.OrderStr else a
  if statement.Start > 0 then
    a ++ " LIMIT " ++ decimal statement.LimitN ++ " OFFSET " ++ decimal statement.Start
  else if statement.LimitN > 0 then a ++ " LIMIT " ++ decimal statement.LimitN
  else a

/-- The method `Statement.genGetSql`: the engine state left, the SQL text and the
parameters. The receiver is a copy, so the caller's statement is not changed. -/
def Statement.genGetSql (statement : Statement) (bean : Value) :
    Except String (Xorm.Engine × String × Slice) :=
  let mapped := statement.Engine.AutoMap bean
  let statement := { statement with Engine := mapped.1, RefTable := some mapped.2 }
  match BuildConditions statement.Engine mapped.2 bean with
  | .error m => .error m
  | .ok (engine, colNames, args) =>
    let statement :=
      { statement with
        Engine := engine
        ConditionStr := " and ".intercalate colNames
        BeanArgs := some args }
    let columnStr :=
      if statement.ColumnStr = "" then statement.genColumnStr else .ok statement.ColumnStr
    match columnStr with
    | .error m => .error m
    | .ok columnStr =>
      .ok (engine, statement.genSelectSql columnStr,
        Slice.append statement.Params statement.BeanArgs)

/-- The method `Statement.genCountSql`. -/
def Statement.genCountSql (statement : Statement) (bean : Value) :
    Except String (Xorm.Engine × String × Slice) :=
  let mapped := statement.Engine.AutoMap bean
  let statement := { statement with Engine := mapped.1, RefTable := some mapped.2 }
  match BuildConditions statement.Engine mapped.2 bean with
  | .error m => .error m
  | .ok (engine, colNames, args) =>
    let statement :=
      { statement with
        Engine := engine
        ConditionStr := " and ".intercalate colNames
        BeanArgs := some args }
    .ok (engine, statement.genSelectSql ("count(*) as " ++ statement.Engine.Quote "total"),
      Slice.append statement.Params statement.BeanArgs)

/-! ## Notions used to state the properties -/

/-- The triple threaded through the loop of `BuildConditions`: the engine state, the
fragments and the parameters. -/
abbrev Acc := Engine × List String × List Any

/-- The result with the lists `ns` and `as` put in front of its two lists. -/
def Acc.prepend (ns : List String) (as : List Any) (r : Acc) : Acc :=
  (r.1, ns ++ r.2.1, as ++ r.2.2)

/-- The engine `e1` is `e` with more types registered: nothing registered is changed, the
abstract functions are the same, and only struct types other than `time.Time` are new. -/
structure Engine.Ext (e e1 : Engine) : Prop where
  quote : e1.Quote = e.Quote
  mapType : e1.MapType = e.MapType
  dialect : e1.Dialect = e.Dialect
  keep : ∀ ty tbl, e.Tables.lookup ty = some tbl → e1.Tables.lookup ty = some tbl
  fresh : ∀ ty, e.Tables.lookup ty = none → (ty.kind ≠ .Struct ∨ ty = timeType) →
    e1.Tables.lookup ty = none

/-- The value `arg` is the value bound for the column `col` of the bean: the value of its
field, as `Interface` returns it, when the type of the field is not registered in the
engine, and the primary-key field of the struct in the field when it is. -/
def IsBoundValue (engine : Engine) (bean : Value) (col : Column) (arg : Any) : Prop :=
  ∃ fieldValue, col.ValueOf bean = .ok (some fieldValue) ∧
    ((engine.Tables.lookup fieldValue.Typ = none ∧
        fieldValue.Interface (col.ReadOnly bean) = .ok arg) ∨
     (∃ table pkCol pkField, engine.Tables.lookup fieldValue.Typ = some table ∧
        table.PKColumn = some pkCol ∧
        fieldValue.FieldByName pkCol.FieldName = .ok (some pkField) ∧
        pkField.Interface (fieldValue.FieldReadOnly pkCol.FieldName) = .ok arg))

/-- The zero values: the empty string, the integer 0, the zero instant. -/
def Value.isZeroValue : Value → Bool
  | .str _ s => s = ""
  | .int _ _ i => i = 0
  | .uint _ _ n => n = 0
  | .time t => t.IsZero
  | _ => false

/-- The non-zero values of the kinds that the switch of `BuildConditions` lets through: a
non-empty string, a non-zero int, int32 or int64, a non-zero instant. -/
def Value.isNonZeroSupported : Value → Bool
  | .str _ s => s ≠ ""
  | .int _ k i => (k = .Int ∨ k = .Int32 ∨ k = .Int64) ∧ i ≠ 0
  | .time t => !t.IsZero
  | _ => false

/-- The number of `?` characters of a text. -/
def countQ (s : String) : Nat :=
  s.data.count '?'

/-- Every text of the list with the separator put before it. -/
def sepConcat (sep : String) : List String → String
  | [] => ""
  | a :: as => sep ++ a ++ sepConcat sep as

/-! ## The segments of a rendered SELECT, in the words of the specification -/

/-- The re-quoted GROUP BY keys. -/
def Statement.requotedKeys (statement : Statement) : String :=
  statement.Engine.Quote (replaceCommas statement.GroupByStr (statement.Engine.Quote ","))

/-- The head `SELECT <columns> FROM <quotedTable>`; the columns are the re-quoted GROUP BY
keys when a GROUP BY fragment is set. -/
def Statement.selectHead (statement : Statement) (columnStr : String) : String :=
  "SELECT " ++ (if statement.GroupByStr = "" then columnStr else statement.requotedKeys)
    ++ " FROM " ++ statement.Engine.Quote statement.TableName

/-- The JOIN segment. -/
def Statement.joinSegment (statement : Statement) : String :=
  if statement.JoinStr = "" then "" else " " ++ statement.JoinStr

/-- The WHERE segment of an explicit WHERE text and a derived condition text. -/
def whereSegmentOf (whereStr conditionStr : String) : String :=
  if whereStr ≠ "" ∧ conditionStr ≠ "" then " WHERE " ++ whereStr ++ " and " ++ conditionStr
  else if whereStr ≠ "" then " WHERE " ++ whereStr
  else if conditionStr ≠ "" then " WHERE " ++ conditionStr
  else ""

/-- The WHERE segment. -/
def Statement.whereSegment (statement : Statement) : String :=
  whereSegmentOf statement.WhereStr statement.ConditionStr

/-- The GROUP BY segment. -/
def Statement.groupBySegment (statement : Statement) : String :=
  if statement.GroupByStr = "" then "" else " GROUP BY " ++ statement.requotedKeys

/-- The HAVING segment. -/
def Statement.havingSegment (statement : Statement) : String :=
  if statement.HavingStr = "" then "" else " " ++ statement.HavingStr

/-- The ORDER BY segment. -/
def Statement.orderBySegment (statement : Statement) : String :=
  if statement.OrderStr = "" then "" else " ORDER BY " ++ statement.OrderStr

/-- The pagination segment. -/
def Statement.paginationSegment (statement : Statement) : String :=
  if statement.Start > 0 then
    " LIMIT " ++ decimal statement.LimitN ++ " OFFSET " ++ decimal statement.Start
  else if statement.LimitN > 0 then " LIMIT " ++ decimal statement.LimitN
  else ""


/-- A call of one of the fragment setters of the statement. -/
inductive FragmentCall
  | Where (querystring : String) (args : Slice)
  | Table (tableName : String)
  | Limit (limit : Int) (start : List Int)
  | OrderBy (order : String)
  | Join (join_operator tablename condition : String)
  | GroupBy (keys : String)
  | Having (conditions : String)

/-- The statement after the call. -/
def FragmentCall.apply (statement : Statement) : FragmentCall → Statement
  | .Where querystring args => statement.Where querystring args
  | .Table tableName => statement.Table tableName
  | .Limit limit start => statement.Limit limit start
  | .OrderBy order => statement.OrderBy order
  | .Join join_operator tablename condition => statement.Join join_operator tablename condition
  | .GroupBy keys => statement.GroupBy keys
  | .Having conditions => statement.Having conditions

/-- The clause that the call sets, numbered. -/
def FragmentCall.clause : FragmentCall → Nat
  | .Where _ _ => 0
  | .Table _ => 1
  | .Limit _ _ => 2
  | .OrderBy _ => 3
  | .Join _ _ _ => 4
  | .GroupBy _ => 5
  | .Having _ => 6

/-- The statement after a list of calls, made from left to right. -/
def applyCalls (statement : Statement) (calls : List FragmentCall) : Statement :=
  calls.foldl FragmentCall.apply statement


/-! ## Concrete tables, beans and statements -/

/-- The column `name`, mapped to the field `Name`. -/
def nameColumn : Column := ⟨"name", "Name", .TWOSIDES⟩

/-- The column `age`, mapped to the field `Age`. -/
def ageColumn : Column := ⟨"age", "Age", .TWOSIDES⟩

/-- The column `id`, mapped to the field `Id`. -/
def idColumn : Column := ⟨"id", "Id", .TWOSIDES⟩

/-- The column `group_id`, mapped to the field `Group`. -/
def groupColumn : Column := ⟨"group_id", "Group", .TWOSIDES⟩

/-- The column `a?`, mapped to the field `A`. -/
def markColumn : Column := ⟨"a?", "A", .TWOSIDES⟩

/-- The table `{columns: [Name string, Age int]}`. -/
def userTable : Table := ⟨"user", [nameColumn, ageColumn], [], [], none⟩

/-- The table of a type `Group` whose primary key is the field `Id`. -/
def groupTable : Table := ⟨"group", [idColumn], [], [], some idColumn⟩

/-- A table with the single column `group_id`. -/
def memberTable : Table := ⟨"member", [groupColumn], [], [], none⟩

/-- A table with the single column `a?`. -/
def markTable : Table := ⟨"t", [markColumn], [], [], none⟩

/-- The object `{Name: "a", Age: 0}`. -/
def userBean : Value :=
  .struct "User"
    (.cons "Name" true (.str "string" "a") (.cons "Age" true (.int "int" .Int 0) .nil))

/-- An object whose field `Age` is the `int8` value 5. -/
def int8Bean : Value :=
  .struct "User"
    (.cons "Name" true (.str "string" "") (.cons "Age" true (.int "int8" .Int8 5) .nil))

/-- An object whose field `Group` is a `Group` with the `int64` key 7. -/
def memberBean : Value :=
  .struct "Member"
    (.cons "Group" true (.struct "Group" (.cons "Id" true (.int "int64" .Int64 7) .nil)) .nil)

/-- An object whose field `Group` is a `Group` with the `uint64` key 5. -/
def uintKeyBean : Value :=
  .struct "Member"
    (.cons "Group" true (.struct "Group" (.cons "Id" true (.uint "uint64" .Uint64 5) .nil)) .nil)

/-- An object whose field `A` is the string `v`. -/
def markBean : Value :=
  .struct "Mark" (.cons "A" true (.str "string" "v") .nil)

/-- The column `name`, mapped to the unexported field `name`. -/
def hiddenNameColumn : Column := ⟨"name", "name", .TWOSIDES⟩

/-- The column `age`, mapped to the unexported field `age`. -/
def hiddenAgeColumn : Column := ⟨"age", "age", .TWOSIDES⟩

/-- The table `{columns: [name string, age int]}` of a type with unexported fields. -/
def hiddenTable : Table := ⟨"hidden", [hiddenNameColumn, hiddenAgeColumn], [], [], none⟩

/-- The object `{name: "a", age: 0}`, whose fields are unexported. -/
def hiddenBean : Value :=
  .struct "Hidden"
    (.cons "name" false (.str "string" "a") (.cons "age" false (.int "int" .Int 0) .nil))

/-- The column `id`, mapped to the unexported field `id`. -/
def hiddenIdColumn : Column := ⟨"id", "id", .TWOSIDES⟩

/-- The table of a type `Owner` whose primary key is the unexported field `id`. -/
def ownerTable : Table := ⟨"owner", [hiddenIdColumn], [], [], some hiddenIdColumn⟩

/-- The column `owner_id`, mapped to the field `Owner`. -/
def ownerColumn : Column := ⟨"owner_id", "Owner", .TWOSIDES⟩

/-- A table with the single column `owner_id`. -/
def petTable : Table := ⟨"pet", [ownerColumn], [], [], none⟩

/-- An object whose field `Owner` is an `Owner` with the `int64` key `key` in its
unexported field `id`. -/
def petBean (key : Int) : Value :=
  .struct "Pet"
    (.cons "Owner" true (.struct "Owner" (.cons "id" false (.int "int64" .Int64 key) .nil)) .nil)

/-- The schema discovery of the examples. -/
def exampleMapType (t : RType) : Table :=
  if t.name = "User" then userTable
  else if t.name = "Group" then groupTable
  else if t.name = "Member" then memberTable
  else if t.name = "Mark" then markTable
  else ⟨t.name, [], [], [], none⟩

/-- An engine with an empty registry that quotes with a backquote on both sides. -/
def exampleEngine : Engine :=
  { Tables := []
    Dialect := ⟨true, true⟩
    Quote := fun s => "`" ++ s ++ "`"
    MapType := exampleMapType
    ColumnString := fun col => col.Name }

/-- The example engine with the type `Group` registered. -/
def groupEngine : Engine :=
  { exampleEngine with Tables := [(⟨"Group", .Struct⟩, groupTable)] }

/-- The example engine with the type `Owner` registered. -/
def ownerEngine : Engine :=
  { exampleEngine with Tables := [(⟨"Owner", .Struct⟩, ownerTable)] }

/-- A statement of the example engine with every fragment empty. -/
def emptyStatement : Statement :=
  { RefTable := none
    Engine := exampleEngine
    Start := 0
    LimitN := 0
    WhereStr := ""
    Params := some []
    OrderStr := ""
    JoinStr := ""
    GroupByStr := ""
    HavingStr := ""
    ColumnStr := ""
    columnMap := some []
    ConditionStr := ""
    AltTableName := ""
    RawSQL := ""
    RawParams := some []
    UseCascade := true
    UseAutoJoin := false
    StoreEngine := ""
    Charset := ""
    BeanArgs := some [] }

/-- The statement after `Where("x = ?", 3)`. -/
def whereStatement : Statement :=
  emptyStatement.Where "x = ?" (some [some (.int "int" .Int 3)])

/-- The statement after `GroupBy("name")`. -/
def groupStatement : Statement :=
  emptyStatement.GroupBy "name"

/-- The copy of the statement that `genGetSql` and `genCountSql` render, once the table of
the bean is attached and the derived conditions are stored. -/
def Statement.withDerived (statement : Statement) (bean : Value) (engine1 : Xorm.Engine)
    (colNames : List String) (args : List Any) : Statement :=
  { statement with
    Engine := engine1
    RefTable := some (statement.Engine.AutoMap bean).2
    ConditionStr := " and ".intercalate colNames
    BeanArgs := some args }


/-! ## Calls of the setters, texts and examples of the later properties -/

/-- A call of `Id` or of `In`, the two methods that extend the WHERE text. -/
inductive WhereCall
  | Id (id : Int)
  | In (column : String) (args : Slice)

/-- The statement after the call. -/
def WhereCall.apply (statement : Statement) : WhereCall → Statement
  | .Id id => statement.Id id
  | .In column args => statement.In column args

/-- The column name of the call holds no `?`. -/
def WhereCall.plainColumn : WhereCall → Prop
  | .Id _ => True
  | .In column _ => countQ column = 0

/-- The text `WhereStr` holds as many `?` as `Params` has elements. -/
def Statement.Aligned (statement : Statement) : Prop :=
  countQ statement.WhereStr = statement.Params.elems.length

/-- The text that one call `Join(op, table, condition)` adds. -/
def joinFragment (call : String × String × String) : String :=
  call.1 ++ " JOIN " ++ call.2.1 ++ " ON " ++ call.2.2

/-- The statement after the calls of `Join`, made from left to right. -/
def applyJoins (statement : Statement) (calls : List (String × String × String)) : Statement :=
  calls.foldl (fun s call => s.Join call.1 call.2.1 call.2.2) statement

/-- Every text of the list with the separator put behind it. -/
def endConcat (sep : String) : List String → String
  | [] => ""
  | a :: as => a ++ sep ++ endConcat sep as

/-- The pieces of a text split at every comma, as `strings.Split(s, ",")` gives them. -/
def splitCommas (s : String) : List String :=
  (s.data.splitOn ',').map String.mk

/-- The text of the `In` condition for a column and a number of arguments. -/
def inText (column : String) (n : Nat) : String :=
  column ++ " IN (" ++ ",".intercalate (List.replicate n "?") ++ ")"

/-- The `int64` value `n` as an `interface{}`. -/
def int64Value (n : Int) : Any :=
  some (.int "int64" .Int64 n)

/-- A table `t` with no column. -/
def emptyTable : Table := ⟨"t", [], [], [], none⟩

/-- A statement of the example engine on the table with no column. -/
def emptyTableStatement : Statement :=
  { emptyStatement with RefTable := some emptyTable }

/-- A table `t` with the columns `id` and `name` and an index and a unique constraint. -/
def indexedTable : Table :=
  ⟨"t", [idColumn, nameColumn], [("name", ["name", "id"])], [("key", ["id"])], some idColumn⟩

/-- A statement of the example engine on the indexed table, with the charset `utf8`. -/
def indexedStatement : Statement :=
  { emptyStatement with RefTable := some indexedTable, Charset := "utf8" }

/-! ## Lemmas on BuildConditions -/

theorem Engine.Ext.refl (e : Engine) : e.Ext e :=
  ⟨rfl, rfl, rfl, fun _ _ h => h, fun _ h _ => h⟩

theorem Engine.Ext.trans {a b c : Engine} (h1 : a.Ext b) (h2 : b.Ext c) : a.Ext c where
  quote := h2.quote.trans h1.quote
  mapType := h2.mapType.trans h1.mapType
  dialect := h2.dialect.trans h1.dialect
  keep := fun ty tbl h => h2.keep ty tbl (h1.keep ty tbl h)
  fresh := fun ty h hk => h2.fresh ty (h1.fresh ty h hk) hk

theorem AutoMapType_lookup_self (e : Engine) (ty : RType) :
    ∃ tbl, (e.AutoMapType ty).1.Tables.lookup ty = some tbl := by
  unfold Engine.AutoMapType
  split
  · next table h => exact ⟨table, h⟩
  · exact ⟨e.MapType ty, by simp [List.lookup_cons]⟩

theorem AutoMapType_ext (e : Engine) (ty : RType) (hk : ty.kind = .Struct) (ht : ty ≠ timeType) :
    e.Ext (e.AutoMapType ty).1 := by
  unfold Engine.AutoMapType
  split
  · exact Engine.Ext.refl e
  · next hnone =>
    refine ⟨rfl, rfl, rfl, ?_, ?_⟩
    · intro ty1 tbl h
      have hne : ty1 ≠ ty := by
        intro heq
        rw [heq, hnone] at h
        cases h
      have hb : (ty1 == ty) = false := by simpa using hne
      simp [List.lookup_cons, hb, h]
    · intro ty1 h hcond
      have hne : ty1 ≠ ty := by
        intro heq
        subst heq
        rcases hcond with hc | hc
        · exact hc hk
        · exact ht hc
      have hb : (ty1 == ty) = false := by simpa using hne
      simp [List.lookup_cons, hb, h]

theorem bind_acc (e : Engine) (ns : List String) (as : List Any) (col : Column) (fv : Value)
    (val : Any) :
    BuildConditions.bind e ns as col fv val
      = (BuildConditions.bind e [] [] col fv val).map (Acc.prepend ns as) := by
  unfold BuildConditions.bind
  repeat' split
  all_goals simp_all [Except.map, Acc.prepend]

theorem body_acc (bean : Value) (e : Engine) (ns : List String) (as : List Any) (col : Column) :
    BuildConditions.body bean (e, ns, as) col
      = (BuildConditions.body bean (e, [], []) col).map (Acc.prepend ns as) := by
  unfold BuildConditions.body
  repeat' split
  all_goals simp_all [Except.map, Acc.prepend, bind_acc e ns as, bind_acc _ ns as]

/-- What a successful `bind` does. -/
theorem bind_ok (e : Engine) (ns : List String) (as : List Any) (col : Column) (fv : Value)
    (val : Any) (r : Acc) (h : BuildConditions.bind e ns as col fv val = .ok r) :
    r.1 = e ∧
    ((e.Tables.lookup fv.Typ = none ∧ r.2.1 = ns ++ [conditionFragment e col] ∧
        r.2.2 = as ++ [val]) ∨
     (∃ table pkCol pkField i, e.Tables.lookup fv.Typ = some table ∧
        table.PKColumn = some pkCol ∧ fv.FieldByName pkCol.FieldName = .ok (some pkField) ∧
        pkField.Int64 = .ok i ∧
        ((i ≠ 0 ∧ ∃ key, pkField.Interface (fv.FieldReadOnly pkCol.FieldName) = .ok key ∧
            r.2.1 = ns ++ [conditionFragment e col] ∧ r.2.2 = as ++ [key]) ∨
         (i = 0 ∧ r.2.1 = ns ∧ r.2.2 = as)))) := by
  unfold BuildConditions.bind at h
  split at h
  · next table htab =>
    split at h
    · cases h
    · next pkCol hpk =>
      split at h
      · cases h
      · cases h
      · next pkField hf =>
        split at h
        · cases h
        · next i hi =>
          split at h
          · next hne =>
            split at h
            · cases h
            · next key hkey =>
              cases h
              exact ⟨rfl, Or.inr ⟨table, pkCol, pkField, i, htab, hpk, hf, hi,
                Or.inl ⟨hne, key, hkey, rfl, rfl⟩⟩⟩
          · next hz =>
            cases h
            exact ⟨rfl, Or.inr ⟨table, pkCol, pkField, i, htab, hpk, hf, hi,
              Or.inr ⟨by simpa using hz, rfl, rfl⟩⟩⟩
  · next hnone =>
    cases h
    exact ⟨rfl, Or.inl ⟨hnone, rfl, rfl⟩⟩

theorem interface_cases (fv val : Value) (ro : Bool) (h : fv.Interface ro = .ok (some val)) :
    fv.Typ.kind = .Interface ∨ val = fv := by
  cases ro <;> cases fv <;> simp_all [Value.Interface, Value.dynamic, Value.Typ]

theorem fieldByName_some (fv pkField : Value) (name : String)
    (h : fv.FieldByName name = .ok (some pkField)) : ∃ t fs, fv = .struct t fs := by
  cases fv <;> simp_all [Value.FieldByName]

/-- A successful `bind` leaves the engine alone and adds nothing or one aligned pair. -/
theorem bind_bound (bean : Value) (e1 : Engine) (ns : List String) (as : List Any)
    (col : Column) (fv val : Value) (r : Acc)
    (hfv : col.ValueOf bean = .ok (some fv))
    (hval : fv.Interface (col.ReadOnly bean) = .ok (some val))
    (hkind : e1.Tables.lookup fv.Typ = none → (fv.Typ.kind ≠ .Struct ∨ fv.Typ = timeType))
    (h : BuildConditions.bind e1 ns as col fv (some val) = .ok r) :
    r.1 = e1 ∧ ((r.2.1 = ns ∧ r.2.2 = as) ∨
      ∃ arg, r.2.1 = ns ++ [conditionFragment e1 col] ∧ r.2.2 = as ++ [arg] ∧
        ∀ e2, e1.Ext e2 → IsBoundValue e2 bean col arg) := by
  obtain ⟨hr, hcase⟩ := bind_ok e1 ns as col fv (some val) r h
  refine ⟨hr, ?_⟩
  rcases hcase with ⟨hnone, h1, h2⟩ | ⟨table, pkCol, pkField, i, htab, hpk, hf, _, hcase2⟩
  · refine Or.inr ⟨some val, h1, h2, ?_⟩
    intro e2 hext
    exact ⟨fv, hfv, Or.inl ⟨hext.fresh _ hnone (hkind hnone), hval⟩⟩
  · rcases hcase2 with ⟨_, key, hkey, h1, h2⟩ | ⟨_, h1, h2⟩
    · refine Or.inr ⟨key, h1, h2, ?_⟩
      intro e2 hext
      exact ⟨fv, hfv, Or.inr ⟨table, pkCol, pkField, hext.keep _ _ htab, hpk, hf, hkey⟩⟩
    · exact Or.inl ⟨h1, h2⟩

/-- One successful iteration extends the registry and adds nothing or one aligned pair. -/
theorem body_ok (bean : Value) (e : Engine) (ns : List String) (as : List Any) (col : Column)
    (r : Acc) (h : BuildConditions.body bean (e, ns, as) col = .ok r) :
    e.Ext r.1 ∧ ((r.2.1 = ns ∧ r.2.2 = as) ∨
      ∃ arg, r.2.1 = ns ++ [conditionFragment e col] ∧ r.2.2 = as ++ [arg] ∧
        ∀ e2, r.1.Ext e2 → IsBoundValue e2 bean col arg) := by
  have plain : ∀ (fv val : Value), col.ValueOf bean = .ok (some fv) →
      fv.Interface (col.ReadOnly bean) = .ok (some val) →
      (val.Typ.kind ≠ .Struct ∨ val.Typ = timeType) →
      BuildConditions.bind e ns as col fv (some val) = .ok r →
      e.Ext r.1 ∧ ((r.2.1 = ns ∧ r.2.2 = as) ∨
        ∃ arg, r.2.1 = ns ++ [conditionFragment e col] ∧ r.2.2 = as ++ [arg] ∧
          ∀ e2, r.1.Ext e2 → IsBoundValue e2 bean col arg) := by
    intro fv val hfv hval hk hb
    have hkind : e.Tables.lookup fv.Typ = none → (fv.Typ.kind ≠ .Struct ∨ fv.Typ = timeType) := by
      intro _
      rcases interface_cases fv val _ hval with hi | hi
      · left; rw [hi]; decide
      · rw [← hi]; exact hk
    obtain ⟨hr, hc⟩ := bind_bound bean e ns as col fv val r hfv hval hkind hb
    rw [hr]
    exact ⟨Engine.Ext.refl e, hc⟩
  unfold BuildConditions.body at h
  split at h
  · cases h
  · cases h
  · next fv hfv =>
    split at h
    · cases h
    · cases h
    · next val hval =>
      split at h
      · next hk =>
        split at h
        · cases h; exact ⟨Engine.Ext.refl e, Or.inl ⟨rfl, rfl⟩⟩
        · exact plain fv val hfv hval (Or.inl (by rw [hk]; decide)) h
      · next hk =>
        split at h
        · cases h
        · split at h
          · cases h; exact ⟨Engine.Ext.refl e, Or.inl ⟨rfl, rfl⟩⟩
          · exact plain fv val hfv hval (Or.inl (by rw [hk]; decide)) h
      · next hk =>
        split at h
        · cases h
        · split at h
          · cases h; exact ⟨Engine.Ext.refl e, Or.inl ⟨rfl, rfl⟩⟩
          · exact plain fv val hfv hval (Or.inl (by rw [hk]; decide)) h
      · next hk =>
        split at h
        · cases h
        · split at h
          · cases h; exact ⟨Engine.Ext.refl e, Or.inl ⟨rfl, rfl⟩⟩
          · exact plain fv val hfv hval (Or.inl (by rw [hk]; decide)) h
      · next hk =>
        split at h
        · next htime =>
          split at h
          · split at h
            · cases h; exact ⟨Engine.Ext.refl e, Or.inl ⟨rfl, rfl⟩⟩
            · exact plain fv _ hfv hval (Or.inr htime) h
          · cases h
        · next htime =>
          simp only at h
          obtain ⟨tbl, htbl⟩ := AutoMapType_lookup_self e fv.Typ
          obtain ⟨hr, hcase⟩ := bind_ok _ ns as col fv (some val) r h
          have hstruct : ∃ t fs, fv = .struct t fs := by
            rcases hcase with ⟨hnone, -, -⟩ | ⟨_, pkCol, pkField, _, _, _, hf, _, _⟩
            · rw [htbl] at hnone; cases hnone
            · exact fieldByName_some fv pkField _ hf
          obtain ⟨t, fs, hfvs⟩ := hstruct
          have hvf : val = fv := by
            rcases interface_cases fv val _ hval with hi | hi
            · subst hfvs
              simp [Value.Typ] at hi
            · exact hi
          have hext : e.Ext (e.AutoMapType fv.Typ).1 :=
            AutoMapType_ext e fv.Typ (by rw [← hvf]; exact hk) (by rw [← hvf]; exact htime)
          obtain ⟨hr1, hc⟩ := bind_bound bean _ ns as col fv val r hfv hval
            (fun hnone => by rw [htbl] at hnone; cases hnone) h
          rw [hr1]
          refine ⟨hext, ?_⟩
          rcases hc with hc | ⟨arg, h1, h2, h3⟩
          · exact Or.inl hc
          · refine Or.inr ⟨arg, ?_, h2, h3⟩
            rw [h1]
            simp [conditionFragment, hext.quote]
      · cases h; exact ⟨Engine.Ext.refl e, Or.inl ⟨rfl, rfl⟩⟩

theorem loop_append (bean : Value) (xs ys : List Column) (acc : Acc) :
    BuildConditions.loop bean (xs ++ ys) acc
      = match BuildConditions.loop bean xs acc with
        | .error m => .error m
        | .ok acc1 => BuildConditions.loop bean ys acc1 := by
  induction xs generalizing acc with
  | nil => simp [BuildConditions.loop]
  | cons col rest ih =>
    simp only [List.cons_append, BuildConditions.loop]
    cases BuildConditions.body bean acc col with
    | error m => rfl
    | ok acc1 => exact ih acc1

theorem loop_acc (bean : Value) (cols : List Column) (e : Engine) (ns : List String)
    (as : List Any) :
    BuildConditions.loop bean cols (e, ns, as)
      = (BuildConditions.loop bean cols (e, [], [])).map (Acc.prepend ns as) := by
  induction cols generalizing e ns as with
  | nil => simp [BuildConditions.loop, Except.map, Acc.prepend]
  | cons col rest ih =>
    simp only [BuildConditions.loop]
    rw [body_acc bean e ns as col]
    cases hb : BuildConditions.body bean (e, [], []) col with
    | error m => rfl
    | ok acc1 =>
      obtain ⟨e1, n1, a1⟩ := acc1
      simp only [Except.map, Acc.prepend]
      rw [ih e1 (ns ++ n1) (as ++ a1), ih e1 n1 a1]
      cases BuildConditions.loop bean rest (e1, [], []) with
      | error m => rfl
      | ok acc2 => simp [Except.map, Acc.prepend, List.append_assoc]

/-- A successful run of the loop: the registry is extended, and the two lists grow by the
fragments and the bound values of a sublist of the columns, pair by pair. -/
theorem loop_ok (bean : Value) (cols : List Column) (e : Engine) (ns : List String)
    (as : List Any) (r : Acc) (h : BuildConditions.loop bean cols (e, ns, as) = .ok r) :
    e.Ext r.1 ∧ ∃ incl : List (Column × Any),
      (incl.map Prod.fst).Sublist cols ∧
      r.2.1 = ns ++ incl.map (fun p => conditionFragment e p.1) ∧
      r.2.2 = as ++ incl.map Prod.snd ∧
      ∀ p ∈ incl, ∀ e2, r.1.Ext e2 → IsBoundValue e2 bean p.1 p.2 := by
  induction cols generalizing e ns as with
  | nil =>
    simp only [BuildConditions.loop] at h
    cases h
    exact ⟨Engine.Ext.refl e, [], by simp⟩
  | cons col rest ih =>
    simp only [BuildConditions.loop] at h
    cases hb : BuildConditions.body bean (e, ns, as) col with
    | error m => rw [hb] at h; cases h
    | ok acc1 =>
      rw [hb] at h
      obtain ⟨e1, n1, a1⟩ := acc1
      obtain ⟨hext1, hstep⟩ := body_ok bean e ns as col _ hb
      obtain ⟨hext2, incl, hsub, hn, ha, hbound⟩ := ih e1 n1 a1 h
      have hq : ∀ c, conditionFragment e1 c = conditionFragment e c := by
        intro c
        have hq1 : e1.Quote = e.Quote := hext1.quote
        simp [conditionFragment, hq1]
      refine ⟨hext1.trans hext2, ?_⟩
      rcases hstep with ⟨h1, h2⟩ | ⟨arg, h1, h2, h3⟩
      · simp only at h1 h2
        subst h1 h2
        exact ⟨incl, hsub.cons _, by simpa [hq] using hn, ha, hbound⟩
      · simp only at h1 h2 h3
        subst h1 h2
        refine ⟨(col, arg) :: incl, ?_, ?_, ?_, ?_⟩
        · simpa using hsub.cons₂ col
        · simpa [hq] using hn
        · simpa using ha
        · intro p hp e2 he2
          rcases List.mem_cons.mp hp with hp | hp
          · subst hp
            exact h3 e2 (hext2.trans he2)
          · exact hbound p hp e2 he2

/-- The iteration of a column whose field is unexported panics at the first `Interface`. -/
theorem body_unexported (bean : Value) (acc : Acc) (col : Column) (fv : Value)
    (hfield : col.ValueOf bean = .ok (some fv)) (hro : col.ReadOnly bean = true) :
    BuildConditions.body bean acc col = .error unexportedPanic := by
  unfold BuildConditions.body
  rw [hfield]
  simp [Value.Interface, hro]

theorem body_zero (bean : Value) (acc : Acc) (col : Column) (fv : Value)
    (hfield : col.ValueOf bean = .ok (some fv)) (hro : col.ReadOnly bean = false)
    (hzero : fv.isZeroValue = true) :
    BuildConditions.body bean acc col = .ok acc := by
  unfold BuildConditions.body
  rw [hfield]
  cases fv with
  | str t s =>
    have hs : s = "" := by simpa [Value.isZeroValue] using hzero
    simp [Value.Interface, Value.dynamic, hro, Value.Typ, Value.Str, hs]
  | int t k i =>
    have hi : i = 0 := by simpa [Value.isZeroValue] using hzero
    cases k <;>
      simp [Value.Interface, Value.dynamic, hro, Value.Typ, Value.Int64, IntKind.toKind, hi]
  | uint t k n =>
    cases k <;> simp [Value.Interface, Value.dynamic, hro, Value.Typ, UintKind.toKind]
  | time t =>
    have ht : t.IsZero = true := by simpa [Value.isZeroValue] using hzero
    simp [Value.Interface, Value.dynamic, hro, Value.Typ, timeType, ht]
  | struct t fs => simp [Value.isZeroValue] at hzero
  | iface t v => simp [Value.isZeroValue] at hzero
  | ifaceNil t => simp [Value.isZeroValue] at hzero
  | other t k => simp [Value.isZeroValue] at hzero

theorem bind_unregistered (e : Engine) (ns : List String) (as : List Any) (col : Column)
    (fv : Value) (val : Any) (hreg : e.Tables.lookup fv.Typ = none) :
    BuildConditions.bind e ns as col fv val
      = .ok (e, ns ++ [conditionFragment e col], as ++ [val]) := by
  unfold BuildConditions.bind
  rw [hreg]

theorem body_nonzero (bean : Value) (e : Engine) (ns : List String) (as : List Any)
    (col : Column) (fv : Value)
    (hfield : col.ValueOf bean = .ok (some fv)) (hro : col.ReadOnly bean = false)
    (hnz : fv.isNonZeroSupported = true)
    (hreg : e.Tables.lookup fv.Typ = none) :
    BuildConditions.body bean (e, ns, as) col
      = .ok (e, ns ++ [conditionFragment e col], as ++ [some fv]) := by
  unfold BuildConditions.body
  rw [hfield, hro]
  cases fv with
  | str t s =>
    have hs : s ≠ "" := by simpa [Value.isNonZeroSupported] using hnz
    simp only [Value.Interface, Value.dynamic, Value.Typ, Value.Str, hs, if_false,
      Bool.false_eq_true]
    exact bind_unregistered e ns as col _ _ hreg
  | int t k i =>
    have hi : (k = .Int ∨ k = .Int32 ∨ k = .Int64) ∧ i ≠ 0 := by
      simpa [Value.isNonZeroSupported] using hnz
    obtain ⟨hk, hi⟩ := hi
    rcases hk with hk | hk | hk <;> subst hk <;>
      simp only [Value.Interface, Value.dynamic, Value.Typ, Value.Int64, IntKind.toKind, hi,
        if_false, Bool.false_eq_true] <;>
      exact bind_unregistered e ns as col _ _ hreg
  | time t =>
    have ht : t.IsZero = false := by simpa [Value.isNonZeroSupported] using hnz
    simp only [Value.Interface, Value.dynamic, Value.Typ, timeType, ht, if_true, if_false,
      Bool.false_eq_true]
    exact bind_unregistered e ns as col _ _ hreg
  | uint t k n => simp [Value.isNonZeroSupported] at hnz
  | struct t fs => simp [Value.isNonZeroSupported] at hnz
  | iface t v => simp [Value.isNonZeroSupported] at hnz
  | ifaceNil t => simp [Value.isNonZeroSupported] at hnz
  | other t k => simp [Value.isNonZeroSupported] at hnz

theorem nonzero_kind (fv : Value) (hnz : fv.isNonZeroSupported = true) :
    fv.Typ.kind ≠ .Struct ∨ fv.Typ = timeType := by
  cases fv with
  | str t s => left; simp [Value.Typ]
  | int t k i => left; cases k <;> simp [Value.Typ, IntKind.toKind]
  | time t => right; rfl
  | uint t k n => simp [Value.isNonZeroSupported] at hnz
  | struct t fs => simp [Value.isNonZeroSupported] at hnz
  | iface t v => simp [Value.isNonZeroSupported] at hnz
  | ifaceNil t => simp [Value.isNonZeroSupported] at hnz
  | other t k => simp [Value.isNonZeroSupported] at hnz

theorem body_struct (bean : Value) (e : Engine) (ns : List String) (as : List Any)
    (col : Column) (t : String) (fs : Fields) (refTable : Table) (pkCol : Column)
    (ty : String) (k : IntKind) (i : Int)
    (hfield : col.ValueOf bean = .ok (some (.struct t fs))) (hro : col.ReadOnly bean = false)
    (ht : t ≠ "time.Time")
    (hreg : e.Tables.lookup ⟨t, .Struct⟩ = some refTable)
    (hpk : refTable.PKColumn = some pkCol)
    (hkey : fs.lookup pkCol.FieldName = some (.int ty k i)) :
    BuildConditions.body bean (e, ns, as) col
      = if i ≠ 0 then
          if fs.unexported pkCol.FieldName then .error unexportedPanic
          else .ok (e, ns ++ [conditionFragment e col], as ++ [some (.int ty k i)])
        else .ok (e, ns, as) := by
  unfold BuildConditions.body
  rw [hfield, hro]
  have hne : (⟨t, .Struct⟩ : RType) ≠ timeType := by
    intro h
    apply ht
    simpa [timeType] using h
  by_cases hi : i = 0
  · simp [Value.Interface, Value.dynamic, Value.Typ, hne, Engine.AutoMapType, hreg,
      BuildConditions.bind, hpk, Value.FieldByName, hkey, Value.Int64, hi]
  · cases hx : fs.unexported pkCol.FieldName <;>
      simp [Value.Interface, Value.dynamic, Value.Typ, hne, Engine.AutoMapType, hreg,
        BuildConditions.bind, hpk, Value.FieldByName, Value.FieldReadOnly, hkey, Value.Int64,
        hi, hx]

theorem skip_equation (bean : Value) (e : Engine) (pre post : List Column) (col : Column)
    (hskip : ∀ e1 n1 a1, e.Ext e1 →
      BuildConditions.body bean (e1, n1, a1) col = .ok (e1, n1, a1)) :
    BuildConditions.loop bean (pre ++ col :: post) (e, [], [])
      = BuildConditions.loop bean (pre ++ post) (e, [], []) := by
  rw [loop_append, loop_append]
  cases hl : BuildConditions.loop bean pre (e, [], []) with
  | error m => rfl
  | ok acc1 =>
    obtain ⟨e1, n1, a1⟩ := acc1
    have hext := (loop_ok bean pre e [] [] _ hl).1
    simp only [BuildConditions.loop]
    rw [hskip e1 n1 a1 hext]

theorem emit_equation (bean : Value) (e : Engine) (pre post : List Column) (col : Column)
    (arg : Any)
    (hemit : ∀ e1 n1 a1, e.Ext e1 →
      BuildConditions.body bean (e1, n1, a1) col
        = .ok (e1, n1 ++ [conditionFragment e1 col], a1 ++ [arg])) :
    BuildConditions.loop bean (pre ++ col :: post) (e, [], [])
      = match BuildConditions.loop bean pre (e, [], []) with
        | .error m => .error m
        | .ok (e1, n1, a1) =>
          match BuildConditions.loop bean post (e1, [], []) with
          | .error m => .error m
          | .ok (e2, n2, a2) =>
            .ok (e2, n1 ++ conditionFragment e col :: n2, a1 ++ arg :: a2) := by
  rw [loop_append]
  cases hl : BuildConditions.loop bean pre (e, [], []) with
  | error m => rfl
  | ok acc1 =>
    obtain ⟨e1, n1, a1⟩ := acc1
    have hext := (loop_ok bean pre e [] [] _ hl).1
    have hq : e1.Quote = e.Quote := hext.quote
    simp only [BuildConditions.loop]
    rw [hemit e1 n1 a1 hext]
    simp only
    rw [loop_acc]
    cases BuildConditions.loop bean post (e1, [], []) with
    | error m => rfl
    | ok acc2 => simp [Except.map, Acc.prepend, conditionFragment, hq]

/-- The object `{name: "a", age: 0}` with unexported fields: `BuildConditions` panics at
the first `Interface`. -/
theorem unexported_field_panics :
    hiddenNameColumn.ValueOf hiddenBean = .ok (some (.str "string" "a")) ∧
    hiddenNameColumn.ReadOnly hiddenBean = true ∧
    BuildConditions exampleEngine hiddenTable hiddenBean = .error unexportedPanic :=
  ⟨rfl, rfl, rfl⟩

/-- A registered struct whose primary key is the unexported field `id`: the key 7 makes
`BuildConditions` panic at `pkField.Interface`, and the key 0 is read with `Int` and the
column is left out. -/
theorem unexported_key_panics :
    ownerEngine.Tables.lookup ⟨"Owner", .Struct⟩ = some ownerTable ∧
    ownerTable.PKColumn = some hiddenIdColumn ∧
    ownerColumn.ReadOnly (petBean 7) = false ∧
    BuildConditions ownerEngine petTable (petBean 7) = .error unexportedPanic ∧
    BuildConditions ownerEngine petTable (petBean 0) = .ok (ownerEngine, [], []) :=
  ⟨rfl, rfl, rfl, rfl, rfl⟩

/-! ## Lemmas on the renderer -/

theorem join_step (a j : String) :
    (if ¬j = "" then a ++ " " ++ j else a) = a ++ (if j = "" then "" else " " ++ j) := by
  split_ifs <;> simp_all [String.append_assoc]

theorem where_step (a w c : String) :
    (if ¬w = "" then
        if ¬c = "" then a ++ " WHERE " ++ w ++ " and " ++ c else a ++ " WHERE " ++ w
      else if ¬c = "" then a ++ " WHERE " ++ c else a) = a ++ whereSegmentOf w c := by
  unfold whereSegmentOf
  split_ifs <;> simp_all [String.append_assoc]

theorem group_step (a g : String) :
    (if ¬g = "" then a ++ " GROUP BY " ++ g else a)
      = a ++ (if g = "" then "" else " GROUP BY " ++ g) := by
  split_ifs <;> simp_all [String.append_assoc]

theorem order_step (a o : String) :
    (if ¬o = "" then a ++ " ORDER BY " ++ o else a)
      = a ++ (if o = "" then "" else " ORDER BY " ++ o) := by
  split_ifs <;> simp_all [String.append_assoc]

theorem limit_step (a : String) (start limitN : Int) :
    (if start > 0 then a ++ " LIMIT " ++ decimal limitN ++ " OFFSET " ++ decimal start
      else if limitN > 0 then a ++ " LIMIT " ++ decimal limitN else a)
      = a ++ (if start > 0 then " LIMIT " ++ decimal limitN ++ " OFFSET " ++ decimal start
          else if limitN > 0 then " LIMIT " ++ decimal limitN else "") := by
  split_ifs <;> simp_all [String.append_assoc]

theorem genSelectSql_segments (st : Statement) (c : String)
    (hg : st.GroupByStr ≠ "" → st.requotedKeys ≠ "") :
    st.genSelectSql c
      = st.selectHead c ++ st.joinSegment ++ st.whereSegment ++ st.groupBySegment
          ++ st.havingSegment ++ st.orderBySegment ++ st.paginationSegment := by
  by_cases h1 : st.GroupByStr = ""
  · simp only [Statement.genSelectSql, Statement.selectHead, Statement.joinSegment,
      Statement.whereSegment, Statement.groupBySegment, Statement.havingSegment,
      Statement.orderBySegment, Statement.paginationSegment, Statement.TableName,
      h1, ne_eq, not_true_eq_false, if_false, if_true, join_step, where_step, group_step,
      order_step, limit_step, String.append_empty]
  · have h2 : ¬st.requotedKeys = "" := hg h1
    simp only [Statement.requotedKeys] at h2
    simp only [Statement.genSelectSql, Statement.selectHead, Statement.joinSegment,
      Statement.whereSegment, Statement.groupBySegment, Statement.havingSegment,
      Statement.orderBySegment, Statement.paginationSegment, Statement.TableName,
      Statement.requotedKeys, h1, h2, ne_eq, not_false_eq_true, if_false, if_true, join_step,
      where_step, group_step, order_step, limit_step, String.append_empty]
    simp only [String.append_assoc]

theorem apply_comm (st : Statement) (x y : FragmentCall) (h : x.clause ≠ y.clause) :
    FragmentCall.apply (FragmentCall.apply st x) y
      = FragmentCall.apply (FragmentCall.apply st y) x := by
  cases x <;> cases y <;> (try exact absurd rfl h) <;>
    simp only [FragmentCall.apply, Statement.Where, Statement.Table, Statement.Limit,
      Statement.OrderBy, Statement.Join, Statement.GroupBy, Statement.Having] <;>
    (repeat' split) <;> first | rfl | simp_all

theorem applyCalls_perm (st : Statement) (calls₁ calls₂ : List FragmentCall)
    (hperm : calls₁.Perm calls₂) (hnodup : (calls₁.map FragmentCall.clause).Nodup) :
    applyCalls st calls₁ = applyCalls st calls₂ := by
  unfold applyCalls
  apply hperm.foldl_eq'
  intro x hx y hy z
  by_cases hxy : x = y
  · rw [hxy]
  · exact apply_comm z x y (fun hc => hxy (List.inj_on_of_nodup_map hnodup hx hy hc))

theorem replaceChars_ne_nil (old : Char) (new cs : List Char) (hnew : new ≠ []) (hcs : cs ≠ []) :
    replaceChars old new cs ≠ [] := by
  cases cs with
  | nil => exact absurd rfl hcs
  | cons c rest =>
    unfold replaceChars
    split
    · simp [hnew]
    · simp

theorem string_ne_empty_iff (s : String) : s ≠ "" ↔ s.data ≠ [] := by
  constructor
  · intro h hd
    apply h
    cases s
    simp_all
  · intro h hs
    apply h
    rw [hs]

theorem requotedKeys_ne (st : Statement) (hquote : ∀ s, s ≠ "" → st.Engine.Quote s ≠ "")
    (hg : st.GroupByStr ≠ "") : st.requotedKeys ≠ "" := by
  unfold Statement.requotedKeys
  apply hquote
  rw [string_ne_empty_iff]
  unfold replaceCommas
  apply replaceChars_ne_nil
  · exact (string_ne_empty_iff _).mp (hquote "," (by decide))
  · exact (string_ne_empty_iff _).mp hg

theorem digitChar_ne (d : Nat) (hd : d < 10) : Nat.digitChar d ≠ 'O' := by
  interval_cases d <;> decide

theorem toDigitsCore_ne (fuel n : Nat) (ds : List Char) (hds : ∀ c ∈ ds, c ≠ 'O') :
    ∀ c ∈ Nat.toDigitsCore 10 fuel n ds, c ≠ 'O' := by
  induction fuel generalizing n ds with
  | zero => simpa [Nat.toDigitsCore] using hds
  | succ fuel ih =>
    have hcons : ∀ c ∈ Nat.digitChar (n % 10) :: ds, c ≠ 'O' := by
      intro c hc
      rcases List.mem_cons.mp hc with hc | hc
      · rw [hc]; exact digitChar_ne _ (Nat.mod_lt _ (by decide))
      · exact hds c hc
    simp only [Nat.toDigitsCore]
    split
    · exact hcons
    · exact ih _ _ hcons

theorem decimal_ne (n : Int) : ∀ c ∈ (decimal n).data, c ≠ 'O' := by
  intro c hc
  cases n with
  | ofNat m =>
    have : c ∈ Nat.toDigitsCore 10 (m + 1) m [] := by
      simpa [decimal, toString, Nat.repr, Nat.toDigits, List.asString] using hc
    exact toDigitsCore_ne _ _ _ (by simp) c this
  | negSucc m =>
    have : c = '-' ∨ c ∈ Nat.toDigitsCore 10 (m + 1 + 1) (m + 1) [] := by
      simpa [decimal, toString, Nat.repr, Nat.toDigits, List.asString] using hc
    rcases this with h | h
    · rw [h]; decide
    · exact toDigitsCore_ne _ _ _ (by simp) c h

theorem limit_segment_no_offset (n : Int) :
    ¬ ("OFFSET".data <:+: (" LIMIT " ++ decimal n).data) := by
  intro h
  have hmem : 'O' ∈ (" LIMIT " ++ decimal n).data := h.subset (by decide)
  rw [String.data_append, List.mem_append] at hmem
  rcases hmem with h1 | h1
  · revert h1; decide
  · exact decimal_ne n 'O' h1 rfl

theorem genSelectSql_render (st : Statement) (c : String) :
    st.genSelectSql c
      = st.selectHead c ++ st.joinSegment ++ st.whereSegment
          ++ (if st.GroupByStr = "" ∨ st.requotedKeys = "" then ""
              else " GROUP BY " ++ st.requotedKeys)
          ++ st.havingSegment ++ st.orderBySegment ++ st.paginationSegment := by
  by_cases hg : st.GroupByStr ≠ "" → st.requotedKeys ≠ ""
  · rw [genSelectSql_segments st c hg]
    congr 4
    unfold Statement.groupBySegment
    by_cases h1 : st.GroupByStr = ""
    · simp [h1]
    · simp [h1, hg h1]
  · have h1 : ¬st.GroupByStr = "" := fun h => hg (fun h2 => absurd h h2)
    have h2 : st.requotedKeys = "" := by
      by_contra h
      exact hg (fun _ => h)
    rw [if_pos (Or.inr h2)]
    simp only [Statement.requotedKeys] at h2
    simp only [Statement.genSelectSql, Statement.selectHead, Statement.joinSegment,
      Statement.whereSegment, Statement.havingSegment,
      Statement.orderBySegment, Statement.paginationSegment, Statement.TableName,
      Statement.requotedKeys, h1, h2, ne_eq, not_false_eq_true, not_true_eq_false, if_false,
      if_true, join_step, where_step, order_step, limit_step, String.append_empty]

theorem genSelectSql_head (st : Statement) (c : String) :
    ∃ rest, st.genSelectSql c
      = st.selectHead c ++ st.joinSegment ++ st.whereSegment ++ rest := by
  rw [genSelectSql_render st c]
  exact ⟨_, by simp only [String.append_assoc]; rfl⟩

theorem genSelectSql_pagination (st : Statement) (c : String) :
    st.genSelectSql c
      = ({ st with Start := 0, LimitN := 0 } : Statement).genSelectSql c
          ++ st.paginationSegment := by
  rw [genSelectSql_render st c, genSelectSql_render { st with Start := 0, LimitN := 0 } c]
  simp [Statement.selectHead, Statement.joinSegment, Statement.whereSegment,
    Statement.havingSegment, Statement.orderBySegment, Statement.paginationSegment,
    Statement.requotedKeys, Statement.TableName]


/-! ## Lemmas on texts and placeholders -/

theorem countQ_append (a b : String) : countQ (a ++ b) = countQ a + countQ b := by
  simp [countQ, List.count_append]

theorem intercalate_go (acc sep : String) (l : List String) :
    String.intercalate.go acc sep l = acc ++ sepConcat sep l := by
  induction l generalizing acc with
  | nil => simp [String.intercalate.go, sepConcat]
  | cons a as ih =>
    simp only [String.intercalate.go, sepConcat]
    rw [ih]
    simp only [String.append_assoc]

theorem intercalate_cons (sep a : String) (as : List String) :
    sep.intercalate (a :: as) = a ++ sepConcat sep as := by
  simp [String.intercalate, intercalate_go]

theorem sepConcat_append (sep : String) (l1 l2 : List String) :
    sepConcat sep (l1 ++ l2) = sepConcat sep l1 ++ sepConcat sep l2 := by
  induction l1 with
  | nil => simp [sepConcat]
  | cons a as ih => simp [sepConcat, ih, String.append_assoc]

theorem countQ_sepConcat (sep : String) (l : List String) (hsep : countQ sep = 0)
    (hl : ∀ x ∈ l, countQ x = 1) : countQ (sepConcat sep l) = l.length := by
  induction l with
  | nil => simp [sepConcat, countQ]
  | cons a as ih =>
    simp only [sepConcat, countQ_append, hsep, List.length_cons]
    rw [hl a (List.mem_cons_self _ _), ih (fun x hx => hl x (List.mem_cons_of_mem _ hx))]
    omega

/-- The WHERE segment of an explicit text `w` and the derived fragments `names`, each
holding one placeholder: the split at a fragment and the count of placeholders. -/
theorem whereSegment_split (w : String) (names : List String)
    (hnames : ∀ x ∈ names, countQ x = 1) :
    countQ (whereSegmentOf w (" and ".intercalate names)) = countQ w + names.length ∧
    ∀ (l1 l2 : List String) (name : String), names = l1 ++ name :: l2 →
      ∃ pre post, whereSegmentOf w (" and ".intercalate names) = pre ++ name ++ post ∧
        countQ pre = countQ w + l1.length := by
  have hand : countQ " and " = 0 := by decide
  have hwhere : countQ " WHERE " = 0 := by decide
  cases names with
  | nil =>
    constructor
    · by_cases hw : w = ""
      · simp [whereSegmentOf, String.intercalate, hw, countQ]
      · simp [whereSegmentOf, String.intercalate, hw, countQ_append, hwhere]
    · intro l1 l2 name h
      simp at h
  | cons a as =>
    have ha : countQ a = 1 := hnames a (List.mem_cons_self _ _)
    have has : ∀ x ∈ as, countQ x = 1 := fun x hx => hnames x (List.mem_cons_of_mem _ hx)
    have hc : a ++ sepConcat " and " as ≠ "" := by
      intro h
      have h2 := congrArg countQ h
      rw [countQ_append, ha] at h2
      simp [countQ] at h2
    rw [intercalate_cons]
    by_cases hw : w = ""
    · have hseg : whereSegmentOf w (a ++ sepConcat " and " as)
          = " WHERE " ++ (a ++ sepConcat " and " as) := by
        simp [whereSegmentOf, hw, hc]
      rw [hseg]
      constructor
      · simp only [countQ_append, hwhere, ha, countQ_sepConcat " and " as hand has, hw,
          List.length_cons]
        simp [countQ]
        omega
      · intro l1 l2 name h
        cases l1 with
        | nil =>
          simp only [List.nil_append, List.cons.injEq] at h
          obtain ⟨h1, h2⟩ := h
          subst h1 h2
          exact ⟨" WHERE ", sepConcat " and " as, by simp only [String.append_assoc],
            by simp [hw, countQ]⟩
        | cons b l1' =>
          simp only [List.cons_append, List.cons.injEq] at h
          obtain ⟨h1, h2⟩ := h
          subst h1 h2
          refine ⟨" WHERE " ++ a ++ sepConcat " and " l1' ++ " and ", sepConcat " and " l2, ?_, ?_⟩
          · simp only [sepConcat_append, sepConcat, String.append_assoc]
          · have hl1 : ∀ x ∈ l1', countQ x = 1 :=
              fun x hx => has x (List.mem_append_left _ hx)
            simp only [countQ_append, hwhere, ha, hand, countQ_sepConcat " and " l1' hand hl1, hw,
              List.length_cons]
            simp [countQ]
            omega
    · have hseg : whereSegmentOf w (a ++ sepConcat " and " as)
          = " WHERE " ++ w ++ sepConcat " and " (a :: as) := by
        simp [whereSegmentOf, hw, hc, sepConcat, String.append_assoc]
      rw [hseg]
      constructor
      · simp only [countQ_append, hwhere, countQ_sepConcat " and " (a :: as) hand hnames]
        omega
      · intro l1 l2 name h
        rw [h]
        refine ⟨" WHERE " ++ w ++ sepConcat " and " l1 ++ " and ", sepConcat " and " l2, ?_, ?_⟩
        · simp only [sepConcat_append, sepConcat, String.append_assoc]
        · have hl1 : ∀ x ∈ l1, countQ x = 1 := by
            intro x hx
            apply hnames
            rw [h]
            exact List.mem_append_left _ hx
          simp only [countQ_append, hwhere, hand, countQ_sepConcat " and " l1 hand hl1]
          omega

/-! ## Lemmas on genGetSql and genCountSql -/

theorem AutoMapType_quote (e : Engine) (ty : RType) : (e.AutoMapType ty).1.Quote = e.Quote := by
  unfold Engine.AutoMapType
  split <;> rfl

theorem derived_quote (st : Statement) (bean : Value) (engine1 : Engine)
    (colNames : List String) (args : List Any)
    (hbuild : BuildConditions (st.Engine.AutoMap bean).1 (st.Engine.AutoMap bean).2 bean
      = .ok (engine1, colNames, args)) :
    engine1.Quote = st.Engine.Quote := by
  have h1 : engine1.Quote = (st.Engine.AutoMap bean).1.Quote :=
    (loop_ok bean _ _ [] [] _ hbuild).1.quote
  rw [h1]
  exact AutoMapType_quote _ _

theorem slice_append_elems (s : Slice) (xs : List Any) :
    (Slice.append s (some xs)).elems = s.elems ++ xs := by
  cases xs with
  | nil => simp [Slice.append, Slice.elems]
  | cons y ys => simp [Slice.append, Slice.elems]

theorem genCountSql_ok (st : Statement) (bean : Value) (engine1 : Engine)
    (colNames : List String) (args : List Any)
    (hbuild : BuildConditions (st.Engine.AutoMap bean).1 (st.Engine.AutoMap bean).2 bean
      = .ok (engine1, colNames, args)) :
    st.genCountSql bean
      = .ok (engine1,
          (st.withDerived bean engine1 colNames args).genSelectSql
            ("count(*) as " ++ st.Engine.Quote "total"),
          Slice.append st.Params (some args)) := by
  have hq := derived_quote st bean engine1 colNames args hbuild
  unfold Statement.genCountSql
  simp only [hbuild, hq]
  rfl

theorem genGetSql_ok (st : Statement) (bean : Value) (engine1 : Engine)
    (colNames : List String) (args : List Any)
    (hbuild : BuildConditions (st.Engine.AutoMap bean).1 (st.Engine.AutoMap bean).2 bean
      = .ok (engine1, colNames, args)) :
    ∃ proj,
      (if st.ColumnStr = "" then
          ({ st with RefTable := some (st.Engine.AutoMap bean).2 } : Statement).genColumnStr
        else .ok st.ColumnStr) = .ok proj ∧
      st.genGetSql bean
        = .ok (engine1, (st.withDerived bean engine1 colNames args).genSelectSql proj,
            Slice.append st.Params (some args)) := by
  have hq := derived_quote st bean engine1 colNames args hbuild
  unfold Statement.genGetSql Statement.withDerived
  simp only [hbuild]
  by_cases hc : st.ColumnStr = ""
  · simp only [hc, if_true, Statement.genColumnStr, Statement.TableName, hq]
    exact ⟨_, rfl, rfl⟩
  · simp only [hc, if_false]
    exact ⟨_, rfl, rfl⟩

theorem derived_where (st : Statement) (bean : Value) (engine1 : Engine)
    (colNames : List String) (args : List Any) (c : String) :
    ∃ before after, (st.withDerived bean engine1 colNames args).genSelectSql c
      = before ++ whereSegmentOf st.WhereStr (" and ".intercalate colNames) ++ after := by
  obtain ⟨rest, h⟩ := genSelectSql_head (st.withDerived bean engine1 colNames args) c
  exact ⟨_, rest, h⟩

/-! ## Claims on BuildConditions -/

/-- C1: a column whose field holds the zero value of its kind (the empty string, the
integer 0 of any integer kind, the zero instant) adds neither a fragment nor a parameter.
Its iteration of the loop of `BuildConditions` returns the two lists as they were when the
field is exported, and panics in `Interface`, with nothing added, when the field is
unexported; for an exported field `BuildConditions` on the table is what it is on the table
without that column; and whenever `BuildConditions` on the table returns, it returns what
it returns on the table without that column. -/
theorem C1_zero_field_emits_nothing (engine : Engine) (table : Table) (bean : Value)
    (pre post : List Column) (col : Column) (fieldValue : Value)
    (hcols : table.Columns = pre ++ col :: post)
    (hfield : col.ValueOf bean = .ok (some fieldValue))
    (hzero : fieldValue.isZeroValue = true) :
    (∀ acc, BuildConditions.body bean acc col
      = if col.ReadOnly bean = true then .error unexportedPanic else .ok acc) ∧
    (col.ReadOnly bean = false →
      BuildConditions engine table bean
        = BuildConditions engine { table with Columns := pre ++ post } bean) ∧
    (∀ r, BuildConditions engine table bean = .ok r →
      BuildConditions engine { table with Columns := pre ++ post } bean = .ok r) := by
  have hskip : col.ReadOnly bean = false →
      BuildConditions engine table bean
        = BuildConditions engine { table with Columns := pre ++ post } bean := by
    intro hro
    unfold BuildConditions
    rw [hcols]
    exact skip_equation bean engine pre post col
      (fun e1 n1 a1 _ => body_zero bean (e1, n1, a1) col fieldValue hfield hro hzero)
  refine ⟨?_, hskip, ?_⟩
  · intro acc
    cases hro : col.ReadOnly bean with
    | false => simpa using body_zero bean acc col fieldValue hfield hro hzero
    | true => simpa using body_unexported bean acc col fieldValue hfield hro
  · intro r hr
    cases hro : col.ReadOnly bean with
    | false => rw [← hskip hro]; exact hr
    | true =>
      exfalso
      unfold BuildConditions at hr
      rw [hcols, loop_append] at hr
      cases hl : BuildConditions.loop bean pre (engine, [], []) with
      | error m => rw [hl] at hr; cases hr
      | ok acc1 =>
        rw [hl] at hr
        simp only [BuildConditions.loop,
          body_unexported bean acc1 col fieldValue hfield hro] at hr
        cases hr

/-- Witness of C1: the column `age` of the object `{Name: "a", Age: 0}`, whose field is
exported, and the column `age` of the object `{name: "a", age: 0}`, whose field is not. -/
theorem C1_zero_field_witness :
    ageColumn.ValueOf userBean = .ok (some (.int "int" .Int 0)) ∧
    BuildConditions exampleEngine userTable userBean
      = BuildConditions exampleEngine { userTable with Columns := [nameColumn] ++ [] } userBean ∧
    hiddenAgeColumn.ValueOf hiddenBean = .ok (some (.int "int" .Int 0)) ∧
    BuildConditions.body hiddenBean (exampleEngine, [], []) hiddenAgeColumn
      = .error unexportedPanic :=
  ⟨rfl, (C1_zero_field_emits_nothing exampleEngine userTable userBean [nameColumn] [] ageColumn
    (.int "int" .Int 0) rfl rfl rfl).2.1 rfl, rfl,
    (C1_zero_field_emits_nothing exampleEngine hiddenTable hiddenBean [hiddenNameColumn] []
      hiddenAgeColumn (.int "int" .Int 0) rfl rfl rfl).1 (exampleEngine, [], [])⟩

/-- C2 fails as stated: the field `Age` holds the non-zero `int8` value 5 and
`BuildConditions` returns no fragment and no parameter for its column. -/
theorem C2_counterexample_int8 :
    ageColumn.ValueOf int8Bean = .ok (some (.int "int8" .Int8 5)) ∧
    (BuildConditions exampleEngine userTable int8Bean).map (fun r => r.2)
      = .ok (([] : List String), ([] : List Any)) := by
  decide

/-- C2 as amended: a column whose field is exported and holds a non-empty string, a
non-zero int, int32 or int64, or a non-zero instant, of a type that is not registered in
the engine, contributes exactly one fragment and one parameter, at its place between what
the columns before it and the columns after it contribute. -/
theorem C2_nonzero_supported_field_once (engine : Engine) (table : Table) (bean : Value)
    (pre post : List Column) (col : Column) (fieldValue : Value)
    (hcols : table.Columns = pre ++ col :: post)
    (hfield : col.ValueOf bean = .ok (some fieldValue))
    (hexported : col.ReadOnly bean = false)
    (hnonzero : fieldValue.isNonZeroSupported = true)
    (hreg : engine.Tables.lookup fieldValue.Typ = none) :
    BuildConditions engine table bean
      = match BuildConditions engine { table with Columns := pre } bean with
        | .error m => .error m
        | .ok (e1, n1, a1) =>
          match BuildConditions e1 { table with Columns := post } bean with
          | .error m => .error m
          | .ok (e2, n2, a2) =>
            .ok (e2, n1 ++ conditionFragment engine col :: n2, a1 ++ some fieldValue :: a2) := by
  unfold BuildConditions
  rw [hcols]
  exact emit_equation bean engine pre post col (some fieldValue) (fun e1 n1 a1 hext =>
    body_nonzero bean e1 n1 a1 col fieldValue hfield hexported hnonzero
      (hext.fresh _ hreg (nonzero_kind fieldValue hnonzero)))

/-- Witness of the amended C2: the column `name` of the object `{Name: "a", Age: 0}`. -/
theorem C2_nonzero_supported_witness :
    nameColumn.ValueOf userBean = .ok (some (.str "string" "a")) ∧
    (BuildConditions exampleEngine userTable userBean).map (fun r => r.2)
      = .ok (["`name` = ?"], [some (.str "string" "a")]) :=
  ⟨rfl, by
    rw [C2_nonzero_supported_field_once exampleEngine userTable userBean [] [ageColumn]
      nameColumn (.str "string" "a") rfl rfl rfl rfl rfl]
    decide⟩

/-- C3: the two lists that `BuildConditions` returns have the same length, and the
parameter at an index is the value bound for the column named in the fragment at that
index. -/
theorem C3_fragments_and_parameters_aligned (engine : Engine) (table : Table) (bean : Value)
    (engine1 : Engine) (colNames : List String) (args : List Any)
    (h : BuildConditions engine table bean = .ok (engine1, colNames, args)) :
    colNames.length = args.length ∧
    ∀ (i : Nat) (name : String), colNames[i]? = some name →
      ∃ col arg, col ∈ table.Columns ∧ args[i]? = some arg ∧
        name = conditionFragment engine col ∧ IsBoundValue engine1 bean col arg := by
  obtain ⟨-, incl, hsub, hn, ha, hbound⟩ := loop_ok bean table.Columns engine [] [] _ h
  simp only [List.nil_append] at hn ha
  subst hn ha
  refine ⟨by simp, ?_⟩
  intro i name hi
  rw [List.getElem?_map] at hi
  cases hp : incl[i]? with
  | none => rw [hp] at hi; cases hi
  | some p =>
    rw [hp] at hi
    have hmem : p ∈ incl := List.getElem?_mem hp
    refine ⟨p.1, p.2, ?_, ?_, ?_, ?_⟩
    · exact hsub.subset (List.mem_map_of_mem Prod.fst hmem)
    · rw [List.getElem?_map, hp]; rfl
    · simpa using hi.symm
    · exact hbound p hmem engine1 (Engine.Ext.refl engine1)

/-- Witness of C3: the object `{Name: "a", Age: 0}` over the columns `name` and `age`. -/
theorem C3_aligned_witness :
    BuildConditions exampleEngine userTable userBean
      = .ok (exampleEngine, ["`name` = ?"], [some (.str "string" "a")]) ∧
    ["`name` = ?"].length = [some (Value.str "string" "a")].length :=
  ⟨rfl, (C3_fragments_and_parameters_aligned exampleEngine userTable userBean exampleEngine
    ["`name` = ?"] [some (.str "string" "a")] rfl).1⟩

/-- C4: the fragments that `BuildConditions` returns are the strings
`Quote(col.Name) ++ " = ?"` of the included columns, which are a subsequence of the columns
of the table in their declared order and the columns that the parameters are bound for;
the object `{Name: "a", Age: 0}` over the columns `[Name string, Age int]` gives the
single fragment `Quote("name") ++ " = ?"` with the parameters `["a"]`, in every engine
that has no table registered for the type `string`. -/
theorem C4_fragments_in_declaration_order (engine : Engine) (table : Table) (bean : Value)
    (engine1 : Engine) (colNames : List String) (args : List Any)
    (h : BuildConditions engine table bean = .ok (engine1, colNames, args)) :
    (∃ included : List Column,
      included.Sublist table.Columns ∧
      colNames = included.map (fun col => engine.Quote col.Name ++ " = ?") ∧
      List.Forall₂ (IsBoundValue engine1 bean) included args) ∧
    (∀ eng : Engine, eng.Tables.lookup ⟨"string", .String⟩ = none →
      BuildConditions eng userTable userBean
        = .ok (eng, [eng.Quote "name" ++ " = ?"], [some (.str "string" "a")])) := by
  constructor
  · obtain ⟨-, incl, hsub, hn, ha, hbound⟩ := loop_ok bean table.Columns engine [] [] _ h
    simp only [List.nil_append] at hn ha
    subst hn ha
    refine ⟨incl.map Prod.fst, hsub, ?_, ?_⟩
    · simp [conditionFragment, Function.comp_def]
    · rw [List.forall₂_map_left_iff, List.forall₂_map_right_iff, List.forall₂_same]
      intro p hp
      exact hbound p hp engine1 (Engine.Ext.refl engine1)
  · intro eng hreg
    have h1 : BuildConditions.body userBean (eng, [], []) nameColumn
        = .ok (eng, [] ++ [conditionFragment eng nameColumn], [] ++ [some (.str "string" "a")]) :=
      body_nonzero userBean eng [] [] nameColumn (.str "string" "a") rfl rfl rfl hreg
    have h2 : ∀ acc, BuildConditions.body userBean acc ageColumn = .ok acc :=
      fun acc => body_zero userBean acc ageColumn (.int "int" .Int 0) rfl rfl rfl
    simp only [BuildConditions, userTable, BuildConditions.loop, h1, h2]
    rfl

/-- Witness of C4: the object `{Name: "a", Age: 0}` in the example engine. -/
theorem C4_declaration_order_witness :
    BuildConditions exampleEngine userTable userBean
      = .ok (exampleEngine, ["`name` = ?"], [some (.str "string" "a")]) ∧
    BuildConditions groupEngine userTable userBean
      = .ok (groupEngine, [groupEngine.Quote "name" ++ " = ?"], [some (.str "string" "a")]) :=
  ⟨rfl, (C4_fragments_in_declaration_order exampleEngine userTable userBean exampleEngine
    ["`name` = ?"] [some (.str "string" "a")] rfl).2 groupEngine rfl⟩

/-- C5 fails as stated: the field `Group` is a struct of the registered type `Group` whose
primary key is the non-zero `uint64` value 5, and `BuildConditions` panics instead of
binding the key. -/
theorem C5_counterexample_unsigned_key :
    groupColumn.ValueOf uintKeyBean
      = .ok (some (.struct "Group" (.cons "Id" true (.uint "uint64" .Uint64 5) .nil))) ∧
    groupEngine.Tables.lookup ⟨"Group", .Struct⟩ = some groupTable ∧
    groupTable.PKColumn = some idColumn ∧
    BuildConditions groupEngine memberTable uintKeyBean
      = .error "reflect: call of reflect.Value.Int on a Value of another kind" :=
  ⟨rfl, rfl, rfl, rfl⟩

/-- C5 as amended: for a column whose field is exported and is a struct, other than a
`time.Time`, of a type registered in the engine, whose primary-key field is of a signed
integer kind, `BuildConditions` binds the value of that field and adds the fragment of the
column when the key is not 0 and its field is exported, and adds neither a fragment nor a
parameter when the key is 0. -/
theorem C5_registered_struct_binds_signed_key (engine : Engine) (table : Table) (bean : Value)
    (pre post : List Column) (col : Column) (t : String) (fs : Fields) (refTable : Table)
    (pkCol : Column) (ty : String) (k : IntKind) (i : Int)
    (hcols : table.Columns = pre ++ col :: post)
    (hfield : col.ValueOf bean = .ok (some (.struct t fs)))
    (hexported : col.ReadOnly bean = false)
    (htime : t ≠ "time.Time")
    (hreg : engine.Tables.lookup ⟨t, .Struct⟩ = some refTable)
    (hpk : refTable.PKColumn = some pkCol)
    (hkey : fs.lookup pkCol.FieldName = some (.int ty k i)) :
    (i ≠ 0 → fs.unexported pkCol.FieldName = false →
      BuildConditions engine table bean
        = match BuildConditions engine { table with Columns := pre } bean with
          | .error m => .error m
          | .ok (e1, n1, a1) =>
            match BuildConditions e1 { table with Columns := post } bean with
            | .error m => .error m
            | .ok (e2, n2, a2) =>
              .ok (e2, n1 ++ conditionFragment engine col :: n2,
                a1 ++ some (.int ty k i) :: a2)) ∧
    (i = 0 →
      BuildConditions engine table bean
        = BuildConditions engine { table with Columns := pre ++ post } bean) := by
  have hbody : ∀ e1 n1 a1, engine.Ext e1 →
      BuildConditions.body bean (e1, n1, a1) col
        = if i ≠ 0 then
            if fs.unexported pkCol.FieldName then .error unexportedPanic
            else .ok (e1, n1 ++ [conditionFragment e1 col], a1 ++ [some (.int ty k i)])
          else .ok (e1, n1, a1) :=
    fun e1 n1 a1 hext =>
      body_struct bean e1 n1 a1 col t fs refTable pkCol ty k i hfield hexported htime
        (hext.keep _ _ hreg) hpk hkey
  constructor
  · intro hi hkeyExported
    unfold BuildConditions
    rw [hcols]
    exact emit_equation bean engine pre post col (some (.int ty k i)) (fun e1 n1 a1 hext => by
      rw [hbody e1 n1 a1 hext, if_pos hi, hkeyExported]
      rfl)
  · intro hi
    unfold BuildConditions
    rw [hcols]
    exact skip_equation bean engine pre post col (fun e1 n1 a1 hext => by
      rw [hbody e1 n1 a1 hext, if_neg (not_not.mpr hi)])

/-- Witness of the amended C5: a `Group` with the `int64` key 7. -/
theorem C5_signed_key_witness :
    groupColumn.ValueOf memberBean
      = .ok (some (.struct "Group" (.cons "Id" true (.int "int64" .Int64 7) .nil))) ∧
    (BuildConditions groupEngine memberTable memberBean).map (fun r => r.2)
      = .ok (["`group_id` = ?"], [some (.int "int64" .Int64 7)]) :=
  ⟨rfl, by
    rw [(C5_registered_struct_binds_signed_key groupEngine memberTable memberBean [] []
      groupColumn "Group" (.cons "Id" true (.int "int64" .Int64 7) .nil) groupTable idColumn
      "int64" .Int64 7 rfl rfl rfl (by decide) rfl rfl rfl).1 (by decide) rfl]
    decide⟩

/-! ## Claims on the renderers -/

/-- C6 fails as stated: `WhereStr` holds one `?` for the one element of `Params`, and for
a column named `a?` the WHERE clause that `genGetSql` renders holds three `?` for the two
parameters it returns; the second `?` is part of the quoted column name. -/
theorem C6_counterexample_question_mark_in_name :
    countQ whereStatement.WhereStr = whereStatement.Params.elems.length ∧
    (whereStatement.genGetSql markBean).map (fun r => r.2)
      = .ok ("SELECT `t`.`a?` FROM `t` WHERE x = ? and `a?` = ?",
          some [some (.int "int" .Int 3), some (.str "string" "v")]) ∧
    countQ " WHERE x = ? and `a?` = ?" = 3 := by
  decide

/-- C6 as amended: `genGetSql` and `genCountSql` return `Params` followed by the parameters
that `BuildConditions` derives, and render a WHERE segment in which the explicit text comes
before the derived fragments; when `WhereStr` holds as many `?` as `Params` has elements
and no quoted column name holds a `?`, the WHERE segment holds as many `?` as parameters
are returned, and the fragment at index `j` holds one `?`, comes after exactly
`len(Params) + j` others, and has its parameter at index `len(Params) + j`. -/
theorem C6_parameters_follow_where_text (st : Statement) (bean : Value) (engine1 : Engine)
    (colNames : List String) (args : List Any)
    (hbuild : BuildConditions (st.Engine.AutoMap bean).1 (st.Engine.AutoMap bean).2 bean
      = .ok (engine1, colNames, args))
    (hcount : countQ st.WhereStr = st.Params.elems.length)
    (hnames : ∀ col ∈ (st.Engine.AutoMap bean).2.Columns,
      countQ (st.Engine.Quote col.Name) = 0) :
    ∃ sqlGet sqlCount params,
      st.genGetSql bean = .ok (engine1, sqlGet, params) ∧
      st.genCountSql bean = .ok (engine1, sqlCount, params) ∧
      params.elems = st.Params.elems ++ args ∧
      (∃ before after, sqlGet
        = before ++ whereSegmentOf st.WhereStr (" and ".intercalate colNames) ++ after) ∧
      (∃ before after, sqlCount
        = before ++ whereSegmentOf st.WhereStr (" and ".intercalate colNames) ++ after) ∧
      (st.WhereStr ≠ "" → ∃ rest,
        whereSegmentOf st.WhereStr (" and ".intercalate colNames)
          = " WHERE " ++ st.WhereStr ++ rest) ∧
      countQ (whereSegmentOf st.WhereStr (" and ".intercalate colNames))
        = params.elems.length ∧
      (∀ (j : Nat) (name : String), colNames[j]? = some name →
        ∃ pre post arg,
          whereSegmentOf st.WhereStr (" and ".intercalate colNames) = pre ++ name ++ post ∧
          countQ pre = st.Params.elems.length + j ∧ countQ name = 1 ∧
          args[j]? = some arg ∧ params.elems[st.Params.elems.length + j]? = some arg) := by
  obtain ⟨proj, -, hget⟩ := genGetSql_ok st bean engine1 colNames args hbuild
  have hcnt := genCountSql_ok st bean engine1 colNames args hbuild
  have hq : (st.Engine.AutoMap bean).1.Quote = st.Engine.Quote := AutoMapType_quote _ _
  obtain ⟨-, incl, hsub, hn, ha, -⟩ := loop_ok bean _ _ [] [] _ hbuild
  simp only [List.nil_append] at hn ha
  have hone : ∀ x ∈ colNames, countQ x = 1 := by
    intro x hx
    rw [hn] at hx
    obtain ⟨p, hp, hpx⟩ := List.mem_map.mp hx
    have hcol : p.1 ∈ (st.Engine.AutoMap bean).2.Columns :=
      hsub.subset (List.mem_map_of_mem Prod.fst hp)
    rw [← hpx]
    simp only [conditionFragment, countQ_append, hq, hnames p.1 hcol]
    decide
  have hlen : colNames.length = args.length := by rw [hn, ha]; simp
  obtain ⟨htotal, hsplit⟩ := whereSegment_split st.WhereStr colNames hone
  have helems := slice_append_elems st.Params args
  refine ⟨_, _, _, hget, hcnt, helems, derived_where st bean engine1 colNames args proj,
    derived_where st bean engine1 colNames args _, ?_, ?_, ?_⟩
  · intro hw
    by_cases hc : " and ".intercalate colNames = ""
    · exact ⟨"", by simp [whereSegmentOf, hw, hc]⟩
    · exact ⟨" and " ++ " and ".intercalate colNames,
        by simp [whereSegmentOf, hw, hc, String.append_assoc]⟩
  · rw [htotal, helems, List.length_append, hcount, hlen]
  · intro j name hj
    obtain ⟨hjlt, hjeq⟩ := List.getElem?_eq_some.mp hj
    have hdecomp : colNames = colNames.take j ++ name :: colNames.drop (j + 1) := by
      rw [← hjeq]
      exact (List.take_append_drop j colNames).symm.trans
        (by rw [List.drop_eq_getElem_cons hjlt])
    obtain ⟨pre, post, hpre, hpc⟩ := hsplit _ _ name hdecomp
    have hargs : j < args.length := hlen ▸ hjlt
    refine ⟨pre, post, args[j], hpre, ?_, hone name (List.getElem?_mem hj), ?_, ?_⟩
    · rw [hpc, hcount, List.length_take, Nat.min_eq_left (Nat.le_of_lt hjlt)]
    · exact List.getElem?_eq_getElem hargs
    · rw [helems, List.getElem?_append_right (Nat.le_add_right _ _)]
      simp [List.getElem?_eq_getElem hargs]

/-- Witness of the amended C6: the statement after `Where("x = ?", 3)` and the object
`{Name: "a", Age: 0}`. -/
theorem C6_parameters_witness :
    ∃ sqlGet sqlCount params,
      whereStatement.genGetSql userBean
        = .ok ((exampleEngine.AutoMap userBean).1, sqlGet, params) ∧
      whereStatement.genCountSql userBean
        = .ok ((exampleEngine.AutoMap userBean).1, sqlCount, params) ∧
      params.elems = whereStatement.Params.elems ++ [some (.str "string" "a")] := by
  obtain ⟨sqlGet, sqlCount, params, h1, h2, h3, -⟩ :=
    C6_parameters_follow_where_text whereStatement userBean (exampleEngine.AutoMap userBean).1
      ["`name` = ?"] [some (.str "string" "a")] rfl (by decide) (by decide)
  exact ⟨sqlGet, sqlCount, params, h1, h2, h3⟩

/-- C7: for an engine whose quoting never returns the empty text for a non-empty one, the
text of `genSelectSql` is the head, the JOIN segment, the WHERE segment, the GROUP BY
segment, the HAVING segment, the ORDER BY segment and the pagination segment, in this
order; the JOIN, GROUP BY, HAVING and ORDER BY segments are empty exactly when the
fragment is and are otherwise the fragment behind its keyword or blank; and the text is
the same after the same calls of distinct setters made in any order. -/
theorem C7_select_is_ordered_concatenation (st : Statement) (c : String)
    (hquote : ∀ s, s ≠ "" → st.Engine.Quote s ≠ "") :
    st.genSelectSql c
      = st.selectHead c ++ st.joinSegment ++ st.whereSegment ++ st.groupBySegment
          ++ st.havingSegment ++ st.orderBySegment ++ st.paginationSegment ∧
    ((st.joinSegment = "" ↔ st.JoinStr = "") ∧
      (st.JoinStr ≠ "" → st.joinSegment = " " ++ st.JoinStr)) ∧
    ((st.groupBySegment = "" ↔ st.GroupByStr = "") ∧
      (st.GroupByStr ≠ "" → st.groupBySegment = " GROUP BY " ++ st.requotedKeys)) ∧
    ((st.havingSegment = "" ↔ st.HavingStr = "") ∧
      (st.HavingStr ≠ "" → st.havingSegment = " " ++ st.HavingStr)) ∧
    ((st.orderBySegment = "" ↔ st.OrderStr = "") ∧
      (st.OrderStr ≠ "" → st.orderBySegment = " ORDER BY " ++ st.OrderStr)) ∧
    (∀ calls₁ calls₂ : List FragmentCall, calls₁.Perm calls₂ →
      (calls₁.map FragmentCall.clause).Nodup →
      (applyCalls st calls₁).genSelectSql c = (applyCalls st calls₂).genSelectSql c) := by
  have hne : ∀ a b : String, a ≠ "" → a ++ b ≠ "" := by
    intro a b ha h
    apply ha
    have h2 := congrArg String.data h
    rw [String.data_append] at h2
    have h3 : a.data = [] := (List.append_eq_nil.mp h2).1
    cases a
    simp_all
  refine ⟨genSelectSql_segments st c (requotedKeys_ne st hquote), ⟨?_, ?_⟩, ⟨?_, ?_⟩, ⟨?_, ?_⟩,
    ⟨?_, ?_⟩, ?_⟩
  · unfold Statement.joinSegment
    split
    · simp [*]
    · simp only [*, iff_false]
      exact hne " " _ (by decide)
  · intro h; simp [Statement.joinSegment, h]
  · unfold Statement.groupBySegment
    split
    · simp [*]
    · simp only [*, iff_false]
      exact hne " GROUP BY " _ (by decide)
  · intro h; simp [Statement.groupBySegment, h]
  · unfold Statement.havingSegment
    split
    · simp [*]
    · simp only [*, iff_false]
      exact hne " " _ (by decide)
  · intro h; simp [Statement.havingSegment, h]
  · unfold Statement.orderBySegment
    split
    · simp [*]
    · simp only [*, iff_false]
      exact hne " ORDER BY " _ (by decide)
  · intro h; simp [Statement.orderBySegment, h]
  · intro calls₁ calls₂ hperm hnodup
    rw [applyCalls_perm st calls₁ calls₂ hperm hnodup]

/-- Witness of C7: a statement of the example engine after `Where("x = ?", 3)`. -/
theorem C7_ordered_concatenation_witness :
    whereStatement.genSelectSql "c"
      = whereStatement.selectHead "c" ++ whereStatement.joinSegment
          ++ whereStatement.whereSegment ++ whereStatement.groupBySegment
          ++ whereStatement.havingSegment ++ whereStatement.orderBySegment
          ++ whereStatement.paginationSegment :=
  (C7_select_is_ordered_concatenation whereStatement "c" (by
    intro s _ h
    have h2 := congrArg String.length h
    simp [whereStatement, Statement.Where, emptyStatement, exampleEngine] at h2
    exact absurd h2.2 (by decide))).1

/-- C8 fails as stated: with the GROUP BY fragment `name` set, the text of `genCountSql`
does not begin with the head of the count projection. -/
theorem C8_counterexample_group_by :
    (groupStatement.genCountSql userBean).map (fun r => r.2.1)
      = .ok "SELECT `name` FROM `user` WHERE `name` = ? GROUP BY `name`" ∧
    ¬ (("SELECT " ++ ("count(*) as " ++ exampleEngine.Quote "total") ++ " FROM "
          ++ exampleEngine.Quote "user").data
        <+: "SELECT `name` FROM `user` WHERE `name` = ? GROUP BY `name`".data) := by
  decide

/-- C8 as amended: when no GROUP BY fragment is set, the text of `genSelectSql` begins with
`SELECT <columnsText> FROM <quoted table name>`, and so do the texts of `genCountSql`, for
the projection `count(*) as <quoted total>`, and of `genGetSql`, for the explicit column
list or else the default one; when a GROUP BY fragment is set, the projection rendered is
the re-quoted GROUP BY keys instead. -/
theorem C8_projection_rendered (st : Statement) (c : String) (bean : Value)
    (engine1 : Engine) (colNames : List String) (args : List Any)
    (hbuild : BuildConditions (st.Engine.AutoMap bean).1 (st.Engine.AutoMap bean).2 bean
      = .ok (engine1, colNames, args)) :
    (st.GroupByStr = "" → ∃ rest,
      st.genSelectSql c = "SELECT " ++ c ++ " FROM " ++ st.Engine.Quote st.TableName ++ rest) ∧
    (st.GroupByStr ≠ "" → ∃ rest,
      st.genSelectSql c
        = "SELECT " ++ st.requotedKeys ++ " FROM " ++ st.Engine.Quote st.TableName ++ rest) ∧
    (st.GroupByStr = "" → ∃ sql params rest,
      st.genCountSql bean = .ok (engine1, sql, params) ∧
      sql = "SELECT " ++ ("count(*) as " ++ st.Engine.Quote "total") ++ " FROM "
        ++ st.Engine.Quote
          ({ st with RefTable := some (st.Engine.AutoMap bean).2 } : Statement).TableName
        ++ rest) ∧
    (st.GroupByStr = "" → ∃ proj sql params rest,
      (if st.ColumnStr = "" then
          ({ st with RefTable := some (st.Engine.AutoMap bean).2 } : Statement).genColumnStr
        else .ok st.ColumnStr) = .ok proj ∧
      st.genGetSql bean = .ok (engine1, sql, params) ∧
      sql = "SELECT " ++ proj ++ " FROM "
        ++ st.Engine.Quote
          ({ st with RefTable := some (st.Engine.AutoMap bean).2 } : Statement).TableName
        ++ rest) := by
  have hq := derived_quote st bean engine1 colNames args hbuild
  have hhead : ∀ (s : Statement) (p : String), ∃ rest,
      s.genSelectSql p
        = "SELECT " ++ (if s.GroupByStr = "" then p else s.requotedKeys) ++ " FROM "
            ++ s.Engine.Quote s.TableName ++ rest := by
    intro s p
    obtain ⟨rest, h⟩ := genSelectSql_head s p
    exact ⟨s.joinSegment ++ s.whereSegment ++ rest,
      by rw [h]; simp only [Statement.selectHead, String.append_assoc]⟩
  refine ⟨?_, ?_, ?_, ?_⟩
  · intro hg
    obtain ⟨rest, h⟩ := hhead st c
    exact ⟨rest, by rw [h, if_pos hg]⟩
  · intro hg
    obtain ⟨rest, h⟩ := hhead st c
    exact ⟨rest, by rw [h, if_neg hg]⟩
  · intro hg
    obtain ⟨rest, h⟩ := hhead (st.withDerived bean engine1 colNames args)
      ("count(*) as " ++ st.Engine.Quote "total")
    refine ⟨_, _, rest, genCountSql_ok st bean engine1 colNames args hbuild, ?_⟩
    rw [h]
    simp [Statement.withDerived, hg, hq, Statement.TableName]
  · intro hg
    obtain ⟨proj, hproj, hget⟩ := genGetSql_ok st bean engine1 colNames args hbuild
    obtain ⟨rest, h⟩ := hhead (st.withDerived bean engine1 colNames args) proj
    refine ⟨proj, _, _, rest, hproj, hget, ?_⟩
    rw [h]
    simp [Statement.withDerived, hg, hq, Statement.TableName]

/-- Witness of the amended C8: the count over the object `{Name: "a", Age: 0}` with no
GROUP BY fragment. -/
theorem C8_projection_witness :
    ∃ sql params rest,
      emptyStatement.genCountSql userBean
        = .ok ((exampleEngine.AutoMap userBean).1, sql, params) ∧
      sql = "SELECT " ++ ("count(*) as " ++ exampleEngine.Quote "total") ++ " FROM "
        ++ exampleEngine.Quote "user" ++ rest :=
  (C8_projection_rendered emptyStatement "c" userBean (exampleEngine.AutoMap userBean).1
    ["`name` = ?"] [some (.str "string" "a")] rfl).2.2.1 rfl
/-- C9: with no JOIN, GROUP BY, HAVING, ORDER BY and pagination set, the text of
`genSelectSql` is the head followed by `WHERE <explicit> and <derived>` when both texts
are set, by `WHERE` and the one that is set when only one is, and by nothing when neither
is. -/
theorem C9_where_segment (st : Statement) (c : String)
    (hjoin : st.JoinStr = "") (hgroup : st.GroupByStr = "") (hhaving : st.HavingStr = "")
    (horder : st.OrderStr = "") (hstart : st.Start = 0) (hlimit : st.LimitN = 0) :
    (st.WhereStr ≠ "" → st.ConditionStr ≠ "" →
      st.genSelectSql c
        = "SELECT " ++ c ++ " FROM " ++ st.Engine.Quote st.TableName
            ++ " WHERE " ++ st.WhereStr ++ " and " ++ st.ConditionStr) ∧
    (st.WhereStr ≠ "" → st.ConditionStr = "" →
      st.genSelectSql c
        = "SELECT " ++ c ++ " FROM " ++ st.Engine.Quote st.TableName
            ++ " WHERE " ++ st.WhereStr) ∧
    (st.WhereStr = "" → st.ConditionStr ≠ "" →
      st.genSelectSql c
        = "SELECT " ++ c ++ " FROM " ++ st.Engine.Quote st.TableName
            ++ " WHERE " ++ st.ConditionStr) ∧
    (st.WhereStr = "" → st.ConditionStr = "" →
      st.genSelectSql c = "SELECT " ++ c ++ " FROM " ++ st.Engine.Quote st.TableName) := by
  have hseg := genSelectSql_segments st c (fun h => absurd hgroup h)
  simp only [Statement.selectHead, Statement.joinSegment, Statement.whereSegment,
    Statement.groupBySegment, Statement.havingSegment, Statement.orderBySegment,
    Statement.paginationSegment, hjoin, hgroup, hhaving, horder, hstart, hlimit, if_true,
    String.append_empty, gt_iff_lt, lt_self_iff_false, if_false] at hseg
  rw [hseg]
  refine ⟨?_, ?_, ?_, ?_⟩ <;> intro hw hc <;>
    simp [whereSegmentOf, hw, hc, String.append_assoc]

/-- Witness of C9: the statement after `Where("x = ?", 3)`, with no derived condition. -/
theorem C9_where_segment_witness :
    whereStatement.genSelectSql "c" = "SELECT c FROM `` WHERE x = ?" :=
  (C9_where_segment whereStatement "c" rfl rfl rfl rfl rfl rfl).2.1 (by decide) rfl

/-- C10: the last thing `genSelectSql` appends to the text rendered without pagination is
`LIMIT <LimitN> OFFSET <Start>` when `Start > 0`, `LIMIT <LimitN>`, which holds no
`OFFSET`, when `Start = 0` and `LimitN > 0`, and nothing when both are 0. -/
theorem C10_pagination_segment (st : Statement) (c : String) :
    (0 < st.Start →
      st.genSelectSql c
        = ({ st with Start := 0, LimitN := 0 } : Statement).genSelectSql c
            ++ (" LIMIT " ++ decimal st.LimitN ++ " OFFSET " ++ decimal st.Start)) ∧
    (st.Start = 0 → 0 < st.LimitN →
      st.genSelectSql c
        = ({ st with Start := 0, LimitN := 0 } : Statement).genSelectSql c
            ++ (" LIMIT " ++ decimal st.LimitN) ∧
      ¬ ("OFFSET".data <:+: (" LIMIT " ++ decimal st.LimitN).data)) ∧
    (st.Start = 0 → st.LimitN = 0 →
      st.genSelectSql c = ({ st with Start := 0, LimitN := 0 } : Statement).genSelectSql c) := by
  have hsplit := genSelectSql_pagination st c
  refine ⟨?_, ?_, ?_⟩
  · intro h
    rw [hsplit]
    simp [Statement.paginationSegment, h]
  · intro h1 h2
    refine ⟨?_, limit_segment_no_offset st.LimitN⟩
    rw [hsplit]
    simp [Statement.paginationSegment, h1, h2]
  · intro h1 h2
    rw [hsplit]
    simp [Statement.paginationSegment, h1, h2]

/-- Witness of C10: `Limit(5)` renders `LIMIT 5` and `Limit(5, 2)` renders
`LIMIT 5 OFFSET 2`. -/
theorem C10_pagination_witness :
    (emptyStatement.Limit 5 []).genSelectSql "c" = "SELECT c FROM ``" ++ " LIMIT 5" ∧
    (emptyStatement.Limit 5 [2]).genSelectSql "c" = "SELECT c FROM ``" ++ " LIMIT 5 OFFSET 2" :=
  ⟨((C10_pagination_segment (emptyStatement.Limit 5 []) "c").2.1 rfl (by decide)).1,
   (C10_pagination_segment (emptyStatement.Limit 5 [2]) "c").1 (by decide)⟩

/-! ## Lemmas on the setters, CREATE TABLE and the GROUP BY keys -/

theorem slice_append_elems_all (s xs : Slice) :
    (Slice.append s xs).elems = s.elems ++ xs.elems := by
  unfold Slice.append
  split
  · next h => simp [h]
  · next y ys h => rw [h]; rfl

theorem countQ_marks (n : Nat) : countQ (",".intercalate (List.replicate n "?")) = n := by
  cases n with
  | zero => decide
  | succ m =>
    rw [List.replicate_succ, intercalate_cons, countQ_append,
      countQ_sepConcat "," _ (by decide) (fun x hx => by
        rw [List.eq_of_mem_replicate hx]; decide)]
    simp only [List.length_replicate]
    have h1 : countQ "?" = 1 := by decide
    omega

theorem countQ_inText (column : String) (n : Nat) (hcol : countQ column = 0) :
    countQ (inText column n) = n := by
  unfold inText
  rw [countQ_append, countQ_append, countQ_append, countQ_marks, hcol]
  have h1 : countQ " IN (" = 0 := by decide
  have h2 : countQ ")" = 0 := by decide
  omega

theorem join_joinStr (st : Statement) (call : String × String × String) :
    (st.Join call.1 call.2.1 call.2.2).JoinStr = st.JoinStr ++ joinFragment call := by
  unfold Statement.Join joinFragment
  split
  · rfl
  · next h =>
    have h0 : st.JoinStr = "" := not_not.mp h
    simp [h0]

theorem foldl_append_string (acc : String) (l : List String) :
    l.foldl (fun r s => r ++ s) acc = acc ++ l.foldl (fun r s => r ++ s) "" := by
  induction l generalizing acc with
  | nil => simp
  | cons a as ih =>
    simp only [List.foldl_cons]
    rw [ih (acc ++ a), ih ("" ++ a)]
    simp [String.append_assoc]

theorem applyJoins_joinStr (st : Statement) (calls : List (String × String × String)) :
    (applyJoins st calls).JoinStr = st.JoinStr ++ String.join (calls.map joinFragment) := by
  induction calls generalizing st with
  | nil => simp [applyJoins, String.join]
  | cons call rest ih =>
    have hstep : applyJoins st (call :: rest)
        = applyJoins (st.Join call.1 call.2.1 call.2.2) rest := rfl
    rw [hstep, ih, join_joinStr]
    simp only [String.join, List.map_cons, List.foldl_cons]
    rw [foldl_append_string ("" ++ joinFragment call)]
    simp [String.append_assoc]

theorem id_aligned (st : Statement) (id : Int) (h : st.Aligned) : (st.Id id).Aligned := by
  unfold Statement.Aligned at h ⊢
  unfold Statement.Id
  split
  · rfl
  · simp only [countQ_append, slice_append_elems_all, List.length_append, h]
    rfl

theorem in_aligned (st : Statement) (column : String) (args : Slice) (h : st.Aligned)
    (hcol : countQ column = 0) : (st.In column args).Aligned := by
  unfold Statement.Aligned at h ⊢
  have htext := countQ_inText column args.elems.length hcol
  unfold inText at htext
  unfold Statement.In
  simp only [MakeArray]
  split
  · exact htext
  · simp only [countQ_append, slice_append_elems_all, List.length_append, h] at htext ⊢
    have h1 : countQ " and " = 0 := by decide
    omega

theorem calls_aligned (st : Statement) (calls : List WhereCall) (h : st.Aligned)
    (hcalls : ∀ call ∈ calls, call.plainColumn) :
    (calls.foldl WhereCall.apply st).Aligned := by
  induction calls generalizing st with
  | nil => exact h
  | cons call rest ih =>
    simp only [List.foldl_cons]
    apply ih
    · cases call with
      | Id id => exact id_aligned st id h
      | In column args =>
        exact in_aligned st column args h (hcalls (.In column args) (List.mem_cons_self _ _))
    · intro c hc
      exact hcalls c (List.mem_cons_of_mem _ hc)

theorem last_not_space (d : String) (hne : d ≠ "") (htrim : TrimSpace d = d) :
    ∃ init last, d.data = init ++ [last] ∧ isSpace last = false := by
  have hdata : d.data ≠ [] := (string_ne_empty_iff d).mp hne
  rcases List.eq_nil_or_concat d.data with h | ⟨init, last, h⟩
  · exact absurd h hdata
  · rw [List.concat_eq_append] at h
    refine ⟨init, last, h, ?_⟩
    have h2 := congrArg String.data htrim
    simp only [TrimSpace] at h2
    have h5 : d.data.reverse = last :: init.reverse := by rw [h]; simp
    have h3 : ((d.data.dropWhile isSpace).reverse.dropWhile isSpace)
        = last :: init.reverse := by
      have h6 := congrArg List.reverse h2
      rw [List.reverse_reverse] at h6
      exact h6.trans h5
    have hw : ((d.data.dropWhile isSpace).reverse.dropWhile isSpace) ≠ [] := by
      rw [h3]; simp
    have h4 := List.head_dropWhile_not isSpace (d.data.dropWhile isSpace).reverse hw
    simpa [h3] using h4

theorem trim_keeps (s d : String) (c : Char) (tail : List Char)
    (hs : s.data = c :: tail) (hc : isSpace c = false)
    (hne : d ≠ "") (htrim : TrimSpace d = d) : TrimSpace (s ++ d) = s ++ d := by
  obtain ⟨init, last, hd, hlast⟩ := last_not_space d hne htrim
  apply String.ext
  simp only [TrimSpace, String.data_append, hs, hd]
  have h1 : (c :: tail ++ (init ++ [last])).dropWhile isSpace = c :: tail ++ (init ++ [last]) := by
    simp [List.dropWhile_cons, hc]
  rw [h1]
  have h2 : (c :: tail ++ (init ++ [last])).reverse
      = last :: (c :: tail ++ init).reverse := by
    simp
  rw [h2]
  have h3 : (last :: (c :: tail ++ init).reverse).dropWhile isSpace
      = last :: (c :: tail ++ init).reverse := by
    simp [List.dropWhile_cons, hlast]
  rw [h3, ← h2, List.reverse_reverse]

theorem create_fold (columnString : Column → String) (cols : List Column) (sql : String)
    (c : Char) (tail : List Char) (hs : sql.data = c :: tail) (hc : isSpace c = false)
    (hdefs : ∀ col ∈ cols, columnString col ≠ "" ∧ TrimSpace (columnString col) = columnString col) :
    cols.foldl (fun sql col => TrimSpace (sql ++ columnString col) ++ ", ") sql
      = sql ++ endConcat ", " (cols.map columnString) := by
  induction cols generalizing sql tail with
  | nil => simp [endConcat]
  | cons col rest ih =>
    obtain ⟨h1, h2⟩ := hdefs col (List.mem_cons_self _ _)
    simp only [List.foldl_cons, List.map_cons, endConcat]
    rw [trim_keeps sql (columnString col) c tail hs hc h1 h2]
    rw [ih (sql ++ columnString col ++ ", ") (tail ++ (columnString col).data ++ ", ".data)
      (by simp [hs]) (fun x hx => hdefs x (List.mem_cons_of_mem _ hx))]
    simp only [String.append_assoc]

theorem endConcat_cons (sep a : String) (as : List String) :
    endConcat sep (a :: as) = a ++ sepConcat sep as ++ sep := by
  induction as generalizing a with
  | nil => simp [endConcat, sepConcat]
  | cons b bs ih =>
    rw [endConcat, ih b]
    simp only [sepConcat, String.append_assoc]

theorem dropLastTwo_append (s : String) (t : String) (ht : t.data.length = 2) :
    dropLastTwo (s ++ t) = s := by
  apply String.ext
  simp only [dropLastTwo, String.data_append, List.length_append, ht]
  simp

theorem sepConcat_data (sep a : String) (as : List String) :
    (sepConcat sep (a :: as)).data = sep.data ++ a.data ++ (sepConcat sep as).data := by
  simp [sepConcat, String.data_append]

theorem replace_pieces (q : List Char) (l : List Char) :
    ∃ k ks, l.splitOn ',' = k :: ks ∧
      replaceChars ',' (q ++ ',' :: q) l ++ q
        = k ++ q ++ (sepConcat "," (ks.map (fun p => String.mk (q ++ p ++ q)))).data := by
  induction l with
  | nil => exact ⟨[], [], rfl, by simp [replaceChars, sepConcat]⟩
  | cons c cs ih =>
    obtain ⟨k, ks, hsplit, hrep⟩ := ih
    have hsplit2 : cs.splitOnP (fun x => x == ',') = k :: ks := hsplit
    by_cases hc : c = ','
    · refine ⟨[], k :: ks, ?_, ?_⟩
      · show (c :: cs).splitOnP (fun x => x == ',') = [] :: k :: ks
        rw [List.splitOnP_cons, hsplit2]
        simp [hc]
      · simp only [replaceChars, hc, if_true, List.map_cons, sepConcat_data, List.append_assoc,
          hrep]
        simp
    · refine ⟨c :: k, ks, ?_, ?_⟩
      · show (c :: cs).splitOnP (fun x => x == ',') = (c :: k) :: ks
        rw [List.splitOnP_cons, hsplit2]
        simp [hc]
      · simp only [replaceChars, hc, if_false, List.cons_append, hrep]

theorem requotedKeys_pieces (st : Statement) (q : String)
    (hwrap : ∀ s, st.Engine.Quote s = q ++ s ++ q) :
    st.requotedKeys = ",".intercalate ((splitCommas st.GroupByStr).map st.Engine.Quote) := by
  obtain ⟨k, ks, hsplit, hrep⟩ := replace_pieces q.data st.GroupByStr.data
  have hquote : ∀ p : List Char, st.Engine.Quote (String.mk p) = String.mk (q.data ++ p ++ q.data) := by
    intro p
    rw [hwrap]
    apply String.ext
    simp [String.data_append]
  have hmap : (ks.map String.mk).map st.Engine.Quote
      = ks.map (fun p => String.mk (q.data ++ p ++ q.data)) := by
    simp [List.map_map, Function.comp_def, hquote]
  unfold Statement.requotedKeys splitCommas replaceCommas
  rw [hsplit, List.map_cons, List.map_cons, intercalate_cons, hmap, hwrap]
  apply String.ext
  have hcomma : (st.Engine.Quote ",").data = q.data ++ ',' :: q.data := by
    rw [hwrap]
    simp [String.data_append]
  simp only [String.data_append, hcomma, List.append_assoc, hquote, List.singleton_append]
    at hrep ⊢
  rw [hrep]

/-! ## Claims on the setters and the DDL renderers -/

/-- C11 fails as stated: on the non-empty WHERE text `x = ?` the call `In("id", 1)` joins
its text with ` and `, in lower case, not with `AND`. -/
theorem C11_counterexample_lowercase_and :
    whereStatement.WhereStr = "x = ?" ∧
    (whereStatement.In "id" (some [int64Value 1])).WhereStr = "x = ? and id IN (?)" ∧
    (whereStatement.In "id" (some [int64Value 1])).WhereStr ≠ "x = ? AND id IN (?)" := by
  decide

/-- C11 as amended: on an empty `WhereStr` the call `In(column, args...)` sets `WhereStr`
to `column ++ " IN (" ++ n question marks joined by "," ++ ")"` and `Params` to `args`,
so `In("id", 1, 2, 3)` gives `id IN (?,?,?)` bound to `[1,2,3]`; on a non-empty `WhereStr`
it appends ` and ` (in lower case) and that same text, and appends `args`, in order, to
the end of `Params`. -/
theorem C11_in_sets_or_appends (st : Statement) (column : String) (args : Slice) :
    (st.WhereStr = "" →
      (st.In column args).WhereStr
        = column ++ " IN (" ++ ",".intercalate (List.replicate args.elems.length "?") ++ ")" ∧
      (st.In column args).Params = args) ∧
    (st.WhereStr ≠ "" →
      (st.In column args).WhereStr
        = st.WhereStr ++ " and "
          ++ (column ++ " IN (" ++ ",".intercalate (List.replicate args.elems.length "?")
            ++ ")") ∧
      (st.In column args).Params.elems = st.Params.elems ++ args.elems) ∧
    ((emptyStatement.In "id" (some [int64Value 1, int64Value 2, int64Value 3])).WhereStr
        = "id IN (?,?,?)" ∧
      (emptyStatement.In "id" (some [int64Value 1, int64Value 2, int64Value 3])).Params
        = some [int64Value 1, int64Value 2, int64Value 3]) := by
  refine ⟨?_, ?_, by decide⟩
  · intro h
    simp [Statement.In, MakeArray, h]
  · intro h
    simp [Statement.In, MakeArray, h, slice_append_elems_all, String.append_assoc]

/-- Witness of the amended C11: `In("id", 1)` after `Where("x = ?", 3)`. -/
theorem C11_in_witness :
    (whereStatement.In "id" (some [int64Value 1])).WhereStr
      = "x = ?" ++ " and " ++ ("id" ++ " IN (" ++ ",".intercalate (List.replicate 1 "?") ++ ")") :=
  ((C11_in_sets_or_appends whereStatement "id" (some [int64Value 1])).2.1 (by decide)).1

/-- C12 fails as stated: on an empty WHERE text `Id(7)` writes `(id)=?`, without blanks,
and on the WHERE text `x = ?` it joins with ` and `, in lower case. -/
theorem C12_counterexample_id_text :
    (emptyStatement.Id 7).WhereStr = "(id)=?" ∧
    (emptyStatement.Id 7).WhereStr ≠ "(id) = ?" ∧
    (whereStatement.Id 7).WhereStr = "x = ? and (id)=?" ∧
    (whereStatement.Id 7).WhereStr ≠ "x = ? AND (id) = ?" := by
  decide

/-- C12 as amended: on an empty `WhereStr` the call `Id(id)` sets `WhereStr` to `(id)=?`
and `Params` to `[id]`; on a non-empty `WhereStr` it appends ` and (id)=?` to it and
appends `id` to the end of `Params`. -/
theorem C12_id_sets_or_appends (st : Statement) (id : Int) :
    (st.WhereStr = "" →
      (st.Id id).WhereStr = "(id)=?" ∧ (st.Id id).Params = some [int64Value id]) ∧
    (st.WhereStr ≠ "" →
      (st.Id id).WhereStr = st.WhereStr ++ " and (id)=?" ∧
      (st.Id id).Params.elems = st.Params.elems ++ [int64Value id]) := by
  constructor
  · intro h
    simp [Statement.Id, h, int64Value]
  · intro h
    refine ⟨by simp [Statement.Id, h], ?_⟩
    simp only [Statement.Id, h, if_false]
    rw [slice_append_elems_all]
    rfl

/-- Witness of the amended C12: `Id(7)` after `Where("x = ?", 3)`. -/
theorem C12_id_witness :
    (whereStatement.Id 7).WhereStr = "x = ?" ++ " and (id)=?" :=
  ((C12_id_sets_or_appends whereStatement 7).2 (by decide)).1

/-- C13: after `Init`, whatever the statement held, the fragment fields are empty, `Start`
and `LimitN` are 0, `RefTable` is nil, the column set is empty, `Params`, `RawParams` and
`BeanArgs` are empty and not nil, and `UseCascade` is true; so `genSelectSql(c)` is
`SELECT c FROM` followed by the quoted empty table name. -/
theorem C13_init_clears_statement (st : Statement) (c : String) :
    (st.Init.WhereStr = "" ∧ st.Init.OrderStr = "" ∧ st.Init.JoinStr = "" ∧
      st.Init.GroupByStr = "" ∧ st.Init.HavingStr = "" ∧ st.Init.ColumnStr = "" ∧
      st.Init.ConditionStr = "" ∧ st.Init.AltTableName = "" ∧ st.Init.RawSQL = "") ∧
    (st.Init.Start = 0 ∧ st.Init.LimitN = 0) ∧
    st.Init.RefTable = none ∧
    st.Init.columnMap = some [] ∧
    (st.Init.Params = some [] ∧ st.Init.RawParams = some [] ∧ st.Init.BeanArgs = some []) ∧
    st.Init.UseCascade = true ∧
    st.Init.genSelectSql c = "SELECT " ++ c ++ " FROM " ++ st.Engine.Quote "" := by
  refine ⟨⟨rfl, rfl, rfl, rfl, rfl, rfl, rfl, rfl, rfl⟩, ⟨rfl, rfl⟩, rfl, rfl, ⟨rfl, rfl, rfl⟩,
    rfl, ?_⟩
  rw [genSelectSql_render]
  simp [Statement.selectHead, Statement.joinSegment, Statement.whereSegment, whereSegmentOf,
    Statement.havingSegment, Statement.orderBySegment, Statement.paginationSegment,
    Statement.TableName, Statement.Init]

/-- Witness of C13: the statement after `Where("x = ?", 3)` and `GroupBy("name")`. -/
theorem C13_init_witness :
    ((whereStatement.GroupBy "name").Init).genSelectSql "c" = "SELECT c FROM ``" :=
  (C13_init_clears_statement (whereStatement.GroupBy "name") "c").2.2.2.2.2.2

/-- C14: for a table with at least one column whose definition texts are not empty and have
no blank at either end, `genCreateSQL` returns `CREATE TABLE IF NOT EXISTS <quoted table>`,
an opening bracket, the definition texts joined by `, ` with no comma after the last, a
closing bracket, then ` ENGINE=<StoreEngine>` exactly when the dialect supports engines and
`StoreEngine` is not empty, then ` DEFAULT CHARSET <Charset>` exactly when the dialect
supports charsets and `Charset` is not empty, then `;`. -/
theorem C14_create_table_text (st : Statement) (table : Table) (first : Column)
    (rest : List Column)
    (htable : st.RefTable = some table)
    (hcols : table.Columns = first :: rest)
    (hdefs : ∀ col ∈ table.Columns,
      st.Engine.ColumnString col ≠ "" ∧
      TrimSpace (st.Engine.ColumnString col) = st.Engine.ColumnString col) :
    st.genCreateSQL
      = .ok ("CREATE TABLE IF NOT EXISTS " ++ st.Engine.Quote st.TableName ++ " ("
          ++ ", ".intercalate (table.Columns.map st.Engine.ColumnString) ++ ")"
          ++ (if st.Engine.Dialect.SupportEngine = true ∧ st.StoreEngine ≠ "" then
                " ENGINE=" ++ st.StoreEngine else "")
          ++ (if st.Engine.Dialect.SupportCharset = true ∧ st.Charset ≠ "" then
                " DEFAULT CHARSET " ++ st.Charset else "")
          ++ ";") := by
  have hfold := create_fold st.Engine.ColumnString table.Columns
    ("CREATE TABLE IF NOT EXISTS " ++ st.Engine.Quote st.TableName ++ " (") 'C'
    ("REATE TABLE IF NOT EXISTS ".data ++ (st.Engine.Quote st.TableName).data ++ " (".data)
    (by simp [String.data_append]) (by decide) hdefs
  simp only [Statement.genCreateSQL, htable, hfold]
  rw [hcols, List.map_cons, endConcat_cons, intercalate_cons]
  have hdrop : dropLastTwo
      ("CREATE TABLE IF NOT EXISTS " ++ st.Engine.Quote st.TableName ++ " ("
        ++ (st.Engine.ColumnString first
            ++ sepConcat ", " (rest.map st.Engine.ColumnString) ++ ", "))
      = "CREATE TABLE IF NOT EXISTS " ++ st.Engine.Quote st.TableName ++ " ("
        ++ (st.Engine.ColumnString first
            ++ sepConcat ", " (rest.map st.Engine.ColumnString)) := by
    rw [← String.append_assoc]
    exact dropLastTwo_append _ ", " rfl
  rw [hdrop]
  split_ifs <;> simp only [String.append_assoc, String.append_empty, String.empty_append]

/-- Witness of C14: the table `t` with the columns `id` and `name` and the charset
`utf8`. -/
theorem C14_create_table_witness :
    indexedStatement.genCreateSQL
      = .ok "CREATE TABLE IF NOT EXISTS `t` (id, name) DEFAULT CHARSET utf8;" :=
  C14_create_table_text indexedStatement indexedTable idColumn [nameColumn] rfl rfl (by decide)

/-- C15, what the code does on a table with no column: `genCreateSQL` signals no error and
returns a text in which the two characters cut before the closing bracket are the blank
and the opening bracket of the column list, so that the closing bracket stands alone. -/
theorem C15_zero_columns_text (st : Statement) (table : Table)
    (htable : st.RefTable = some table) (hcols : table.Columns = []) :
    st.genCreateSQL
      = .ok ("CREATE TABLE IF NOT EXISTS " ++ st.Engine.Quote st.TableName ++ ")"
          ++ (if st.Engine.Dialect.SupportEngine = true ∧ st.StoreEngine ≠ "" then
                " ENGINE=" ++ st.StoreEngine else "")
          ++ (if st.Engine.Dialect.SupportCharset = true ∧ st.Charset ≠ "" then
                " DEFAULT CHARSET " ++ st.Charset else "")
          ++ ";") := by
  simp only [Statement.genCreateSQL, htable, hcols, List.foldl_nil]
  rw [dropLastTwo_append _ " (" rfl]
  split_ifs <;> simp only [String.append_assoc, String.append_empty, String.empty_append]

/-- The failing input of C15: the table `t` with no column gives a statement with an
unbalanced closing bracket. -/
theorem C15_zero_columns_witness :
    emptyTable.Columns = [] ∧
    emptyTableStatement.genCreateSQL = .ok "CREATE TABLE IF NOT EXISTS `t`);" :=
  ⟨rfl, C15_zero_columns_text emptyTableStatement emptyTable rfl rfl⟩

/-- C16: `genIndexSQL` returns one statement for each entry of `RefTable.Indexes` and
`genUniqueSQL` one for each entry of `RefTable.Uniques`, in the order of the entries; the
statement of the entry `(name, cols)` is `CREATE INDEX IDX_<t>_<name> ON <t> (<cols>);`,
respectively `CREATE UNIQUE INDEX UQE_<t>_<name> ON <t> (<cols>);`, with the unquoted
table name `t` and the unquoted column names joined by `,` with no blank. -/
theorem C16_one_statement_per_index (st : Statement) (table : Table)
    (htable : st.RefTable = some table) :
    st.genIndexSQL
      = .ok (table.Indexes.map (fun entry =>
          "CREATE INDEX IDX_" ++ st.TableName ++ "_" ++ entry.1 ++ " ON " ++ st.TableName
            ++ " (" ++ ",".intercalate entry.2 ++ ");")) ∧
    st.genUniqueSQL
      = .ok (table.Uniques.map (fun entry =>
          "CREATE UNIQUE INDEX UQE_" ++ st.TableName ++ "_" ++ entry.1 ++ " ON " ++ st.TableName
            ++ " (" ++ ",".intercalate entry.2 ++ ");")) ∧
    (∀ sqls, st.genIndexSQL = .ok sqls → sqls.length = table.Indexes.length) ∧
    (∀ sqls, st.genUniqueSQL = .ok sqls → sqls.length = table.Uniques.length) := by
  have h1 : st.genIndexSQL
      = .ok (table.Indexes.map (fun entry =>
          "CREATE INDEX IDX_" ++ st.TableName ++ "_" ++ entry.1 ++ " ON " ++ st.TableName
            ++ " (" ++ ",".intercalate entry.2 ++ ");")) := by
    simp only [Statement.genIndexSQL, htable]
  have h2 : st.genUniqueSQL
      = .ok (table.Uniques.map (fun entry =>
          "CREATE UNIQUE INDEX UQE_" ++ st.TableName ++ "_" ++ entry.1 ++ " ON " ++ st.TableName
            ++ " (" ++ ",".intercalate entry.2 ++ ");")) := by
    simp only [Statement.genUniqueSQL, htable]
  refine ⟨h1, h2, ?_, ?_⟩
  · intro sqls h
    rw [h1] at h
    cases h
    simp
  · intro sqls h
    rw [h2] at h
    cases h
    simp

/-- Witness of C16: the table `t` with the index `name` on `name, id` and the unique
constraint `key` on `id`. -/
theorem C16_index_witness :
    indexedStatement.genIndexSQL = .ok ["CREATE INDEX IDX_t_name ON t (name,id);"] ∧
    indexedStatement.genUniqueSQL = .ok ["CREATE UNIQUE INDEX UQE_t_key ON t (id);"] :=
  ⟨(C16_one_statement_per_index indexedStatement indexedTable rfl).1,
   (C16_one_statement_per_index indexedStatement indexedTable rfl).2.1⟩

/-- C17: calls of `Join` on a statement whose `JoinStr` is empty leave in `JoinStr` the
fragments `op ++ " JOIN " ++ table ++ " ON " ++ condition` of the calls, in call order,
one right after the other with nothing put between them. -/
theorem C17_joins_concatenate (st : Statement) (calls : List (String × String × String))
    (hempty : st.JoinStr = "") :
    (applyJoins st calls).JoinStr
      = String.join (calls.map (fun call =>
          call.1 ++ " JOIN " ++ call.2.1 ++ " ON " ++ call.2.2)) := by
  rw [applyJoins_joinStr, hempty]
  simp [joinFragment, Function.comp_def]
  rfl

/-- Witness of C17: two calls of `Join` run into each other. -/
theorem C17_joins_witness :
    (applyJoins emptyStatement [("INNER", "a", "x"), ("LEFT", "b", "y")]).JoinStr
      = "INNER JOIN a ON xLEFT JOIN b ON y" :=
  C17_joins_concatenate emptyStatement [("INNER", "a", "x"), ("LEFT", "b", "y")] rfl

/-- C18: for a quoting that puts one text `q` on both sides of its argument and a
non-empty `GroupByStr`, the re-quoted keys are the pieces of `GroupByStr` between its
commas, each quoted by itself, joined by `,`; that text behind ` GROUP BY ` is the GROUP BY
segment of `genSelectSql`. -/
theorem C18_group_by_keys_quoted_one_by_one (st : Statement) (c q : String)
    (hwrap : ∀ s, st.Engine.Quote s = q ++ s ++ q) (hgroup : st.GroupByStr ≠ "") :
    st.requotedKeys = ",".intercalate ((splitCommas st.GroupByStr).map st.Engine.Quote) ∧
    st.genSelectSql c
      = st.selectHead c ++ st.joinSegment ++ st.whereSegment
          ++ (" GROUP BY "
            ++ ",".intercalate ((splitCommas st.GroupByStr).map st.Engine.Quote))
          ++ st.havingSegment ++ st.orderBySegment ++ st.paginationSegment := by
  have hpieces := requotedKeys_pieces st q hwrap
  refine ⟨hpieces, ?_⟩
  have hquote : ∀ s, s ≠ "" → st.Engine.Quote s ≠ "" := by
    intro s hs h
    rw [hwrap] at h
    have h2 := congrArg String.data h
    simp only [String.data_append] at h2
    have h3 : s.data = [] := by
      have := List.append_eq_nil.mp h2
      exact (List.append_eq_nil.mp this.1).2
    exact (string_ne_empty_iff s).mp hs h3
  rw [genSelectSql_segments st c (fun hg => requotedKeys_ne st hquote hg)]
  simp only [Statement.groupBySegment, hgroup, if_false, hpieces]

/-- Witness of C18: the keys `name,age` quoted with a backquote. -/
theorem C18_group_by_witness :
    (emptyStatement.GroupBy "name,age").requotedKeys = "`name`,`age`" :=
  (C18_group_by_keys_quoted_one_by_one (emptyStatement.GroupBy "name,age") "c" "`"
    (fun _ => rfl) (by decide)).1

/-- C19: when `WhereStr` holds as many `?` as `Params` has elements, it still does after
`Id(id)` and after `In(column, args...)` for a column name that holds no `?`; so it does
in every statement reached from `Init` by calls of `Id` and of `In` with such column
names. -/
theorem C19_placeholders_stay_aligned (st : Statement) (id : Int) (column : String)
    (args : Slice) (calls : List WhereCall)
    (haligned : countQ st.WhereStr = st.Params.elems.length) :
    countQ (st.Id id).WhereStr = (st.Id id).Params.elems.length ∧
    (countQ column = 0 →
      countQ (st.In column args).WhereStr = (st.In column args).Params.elems.length) ∧
    ((∀ call ∈ calls, call.plainColumn) →
      countQ (calls.foldl WhereCall.apply st.Init).WhereStr
        = (calls.foldl WhereCall.apply st.Init).Params.elems.length) :=
  ⟨id_aligned st id haligned, fun hcol => in_aligned st column args haligned hcol,
    fun hcalls => calls_aligned st.Init calls rfl hcalls⟩

/-- Witness of C19: `Id(7)` and `In("id", 1, 2)` after `Where("x = ?", 3)`. -/
theorem C19_aligned_witness :
    countQ whereStatement.WhereStr = whereStatement.Params.elems.length ∧
    countQ (whereStatement.Id 7).WhereStr = (whereStatement.Id 7).Params.elems.length ∧
    countQ (whereStatement.In "id" (some [int64Value 1, int64Value 2])).WhereStr
      = (whereStatement.In "id" (some [int64Value 1, int64Value 2])).Params.elems.length :=
  ⟨by decide,
   (C19_placeholders_stay_aligned whereStatement 7 "id" (some [int64Value 1, int64Value 2]) []
    (by decide)).1,
   (C19_placeholders_stay_aligned whereStatement 7 "id" (some [int64Value 1, int64Value 2]) []
    (by decide)).2.1 (by decide)⟩

/-- C20: `Limit(count)` with no start argument changes `LimitN` only, so after an earlier
`Limit(n, s)` with `s > 0` the offset is still `s` and `genSelectSql` ends with
`LIMIT <count> OFFSET <s>`. -/
theorem C20_limit_keeps_offset (st : Statement) (count n s : Int) (more : List Int)
    (c : String) :
    st.Limit count [] = { st with LimitN := count } ∧
    ((st.Limit n (s :: more)).Limit count []).Start = s ∧
    (0 < s →
      ((st.Limit n (s :: more)).Limit count []).genSelectSql c
        = ({ st with Start := 0, LimitN := 0 } : Statement).genSelectSql c
            ++ (" LIMIT " ++ decimal count ++ " OFFSET " ++ decimal s)) := by
  refine ⟨rfl, rfl, ?_⟩
  intro hs
  rw [genSelectSql_pagination]
  simp [Statement.Limit, Statement.paginationSegment, hs]

/-- Witness of C20: `Limit(5, 2)` followed by `Limit(9)`. -/
theorem C20_limit_witness :
    ((emptyStatement.Limit 5 [2]).Limit 9 []).genSelectSql "c"
      = "SELECT c FROM ``" ++ (" LIMIT 9 OFFSET 2") :=
  (C20_limit_keeps_offset emptyStatement 9 5 2 [] "c").2.2 (by decide)

end Xorm
